import Mathlib

/-!
# Appointment booking: slot allocation of `appointmentController.js`

A shallow embedding of the time utilities (`parseTime`, `formatTime`), of the
slot allocation inside `bookAppointment` (window check `isTimeValid`, explicit
time branch, auto-assignment loop) and of the booking orchestration against an
explicit store, followed by the properties proved about them.

JavaScript strings are modelled as lists of characters, the numbers that the
time arithmetic produces as `JSNum` (NaN or a non-negative integer).
-/

namespace Hospital

/-- A JavaScript string, as the list of its characters. -/
abbrev Str := List Char

/-! ## JavaScript values and built-ins used by the controller -/

/-- The number values of the modelled fragment of the time arithmetic: `NaN`,
or a non-negative integer (minutes of a day, hours, window bounds), exact as
long as it stays below 2^53. Negative, fractional and infinite values, which
`Number` yields on other input, are not represented; the properties below that
depend on the value of a string are stated for strings inside the fragment
(`faithfulTime`, `faithfulWindow`). -/
inductive JSNum where
  | nan : JSNum
  | fin (n : Nat) : JSNum
  deriving DecidableEq, Repr

namespace JSNum

/-- JS `a + b`: NaN is absorbing. -/
def add : JSNum → JSNum → JSNum
  | fin a, fin b => fin (a + b)
  | _, _ => nan

/-- JS `a * b`: NaN is absorbing. -/
def mul : JSNum → JSNum → JSNum
  | fin a, fin b => fin (a * b)
  | _, _ => nan

/-- JS `a < b`: false as soon as one side is NaN. -/
def lt : JSNum → JSNum → Bool
  | fin a, fin b => decide (a < b)
  | _, _ => false

/-- JS `a <= b`: false as soon as one side is NaN. -/
def le : JSNum → JSNum → Bool
  | fin a, fin b => decide (a ≤ b)
  | _, _ => false

/-- JS `a >= b`: false as soon as one side is NaN. -/
def ge : JSNum → JSNum → Bool
  | fin a, fin b => decide (b ≤ a)
  | _, _ => false

/-- JS `a === b` on numbers: NaN is not equal to anything. -/
def strictEq : JSNum → JSNum → Bool
  | fin a, fin b => decide (a = b)
  | _, _ => false

end JSNum

/-- Whether `p` is an initial segment of `s`. -/
def startsWith : Str → Str → Bool
  | [], _ => true
  | _ :: _, [] => false
  | p :: ps, c :: cs => p == c && startsWith ps cs

/-- Worker of `jsSplit`: `skip` counts the characters of a separator occurrence
still to be dropped, `cur` holds the current piece in reverse. -/
def splitGo (sep : Str) : Nat → Str → Str → List Str
  | _, [], cur => [cur.reverse]
  | skip + 1, _ :: cs, cur => splitGo sep skip cs cur
  | 0, c :: cs, cur =>
    if startsWith sep (c :: cs) then cur.reverse :: splitGo sep (sep.length - 1) cs []
    else splitGo sep 0 cs (c :: cur)

/-- JS `s.split(sep)` for a non-empty separator string: the pieces between the
successive, left-to-right, non-overlapping occurrences of `sep`; a string
without an occurrence is its own single piece. -/
def jsSplit (sep : Str) (s : Str) : List Str := splitGo sep 0 s []

/-- The value of a string of decimal digits, most significant digit first. -/
def digitsVal (s : Str) : Nat := s.foldl (fun acc c => acc * 10 + (c.toNat - 48)) 0

/-- JS `Number(s)` on the modelled fragment: the empty string converts to 0, a
string of ASCII decimal digits to the integer it denotes (leading zeros
allowed). A string with any other character is given `NaN` here, which is what
`Number` returns when the string holds a character of no numeric literal
(`neverNumeric`); signs, fractions, exponents, radix prefixes, `Infinity` and
surrounding white space, which `Number` reads as numbers, are outside the
fragment, and no property below is stated for them. -/
def toNumber (s : Str) : JSNum :=
  if s.all Char.isDigit then JSNum.fin (digitsVal s) else JSNum.nan

/-- JS `String(n)` of a non-negative integer: its decimal digits. -/
def natToStr (n : Nat) : Str := Nat.toDigits 10 n

/-- JS `s.padStart(n, c)` with a one-character filler. -/
def padStart (n : Nat) (c : Char) (s : Str) : Str := List.replicate (n - s.length) c ++ s

/-! ## Time utilities (`appointmentController.js`, lines 8-22) -/

/-- Source `parseTime`: split at the blank into time and modifier, split the
time at the colon and convert the pieces with `Number`; a missing minute piece
is `undefined`, which turns the sum into `NaN`. The function never throws on a
string. -/
def parseTime (timeStr : Str) : JSNum :=
  let parts := jsSplit [' '] timeStr
  let time := parts.headD []
  let modifier : Option Str := parts.get? 1
  let nums := (jsSplit [':'] time).map toNumber
  let hours := nums.headD JSNum.nan
  let minutes := (nums.get? 1).getD JSNum.nan
  let hours := if modifier = some "PM".toList && JSNum.lt hours (JSNum.fin 12)
    then JSNum.add hours (JSNum.fin 12) else hours
  let hours := if modifier = some "AM".toList && JSNum.strictEq hours (JSNum.fin 12)
    then JSNum.fin 0 else hours
  JSNum.add (JSNum.mul hours (JSNum.fin 60)) minutes

/-- Source `formatTime`: 12-hour clock string of a minute count. On `NaN` every
arithmetic result is `NaN`, both comparisons are false and the template prints
`NaN` twice. -/
def formatTime (minutes : JSNum) : Str :=
  match minutes with
  | JSNum.nan => "NaN:NaN AM".toList
  | JSNum.fin m =>
    let hours := m / 60
    let mins := m % 60
    let period := if hours ≥ 12 then "PM".toList else "AM".toList
    let formattedHours := if hours % 12 = 0 then 12 else hours % 12
    natToStr formattedHours ++ ":".toList ++ padStart 2 '0' (natToStr mins) ++ " ".toList ++ period


/-- The hour adjustment of `parseTime` (lines 11-12) followed by line 13. -/
def clockValue (modifier : Option Str) (hours minutes : JSNum) : JSNum :=
  let hours := if modifier = some "PM".toList && JSNum.lt hours (JSNum.fin 12)
    then JSNum.add hours (JSNum.fin 12) else hours
  let hours := if modifier = some "AM".toList && JSNum.strictEq hours (JSNum.fin 12)
    then JSNum.fin 0 else hours
  JSNum.add (JSNum.mul hours (JSNum.fin 60)) minutes

/-! ## Data model -/

/-- A patient record of the patient store. -/
structure Patient where
  id : Nat
  name : Str
  age : Nat
  gender : Str
  phone : Str
  deriving DecidableEq, Repr

/-- The inline patient details of a booking request (`req.body.patient`);
an absent field is `none`. -/
structure PatientInput where
  name : Option Str
  age : Option Nat
  gender : Option Str
  phone : Option Str
  deriving DecidableEq, Repr

/-- A doctor record: the fields the booking reads. -/
structure Doctor where
  id : Nat
  name : Str
  availableDays : List Str
  availableTime : List Str
  fee : Nat
  deriving DecidableEq, Repr

/-- An appointment document (`models/Appointment.js`); `status` and
`paymentStatus` carry the schema defaults on creation. -/
structure Appointment where
  id : Nat
  patientId : Nat
  patientName : Str
  doctorId : Nat
  date : Str
  time : Str
  fee : Nat
  paymentStatus : Str
  status : Str
  deriving DecidableEq, Repr

/-- The persistent store: the three collections and the next fresh identifier. -/
structure Store where
  patients : List Patient
  doctors : List Doctor
  appointments : List Appointment
  nextId : Nat
  deriving DecidableEq, Repr

/-- The body of a booking request; an absent field is `none`. -/
structure BookRequest where
  patientId : Option Str
  patient : Option PatientInput
  doctorId : Option Str
  date : Option Str
  time : Option Str
  deriving DecidableEq, Repr

/-- What the controller takes from its platform: identifier parsing
(`mongoose.Types.ObjectId.isValid` together with the cast the queries apply,
`none` for a string that is no identifier), the time value of `new Date(date)`
(`none` for an invalid date), the time value of the local midnight that
`today.setHours(0, 0, 0, 0)` yields, the weekday name computed by `getDayName`,
and the validation of the Patient model, whose file is not among the sources. -/
structure Env where
  objectId : Str → Option Nat
  dateValue : Str → Option Int
  todayStart : Int
  dayName : Str → Str
  patientAccepted : Str → Nat → Str → Str → Bool

/-- The HTTP outcome of a controller call: 400 with a message, 201 with the
created appointment and the doctor's name, or 500 after a caught exception. -/
inductive Response where
  | badRequest (message : Str) : Response
  | created (appointment : Appointment) (doctorName : Str) : Response
  | serverError : Response
  deriving DecidableEq, Repr

/-- The value a stage of the controller hands on, or the response with which
the controller returns early. -/
inductive Result (α : Type) where
  | ok (value : α) : Result α
  | error (response : Response) : Result α
  deriving DecidableEq, Repr

/-- JS truthiness of an optional string field: present and non-empty. -/
def truthy : Option Str → Option Str
  | some (c :: cs) => some (c :: cs)
  | _ => none

/-- JS `xs.join(sep)`. -/
def joinWith (sep : Str) : List Str → Str
  | [] => []
  | [x] => x
  | x :: y :: rest => x ++ sep ++ joinWith sep (y :: rest)

/-! ## Slot allocation (`bookAppointment`, lines 81-121) -/

/-- The separator `" - "` between the two clock times of a window string. -/
def windowSep : Str := [' ', '-', ' ']

/-- The bounds `const [start, end] = slot.split(" - ").map(parseTime)` of a
window (line 87); a window without a second piece leaves `end` undefined, and a
comparison with `undefined` is false like one with `NaN`. -/
def windowBounds (slot : Str) : JSNum × JSNum :=
  let bounds := (jsSplit windowSep slot).map parseTime
  (bounds.headD JSNum.nan, (bounds.get? 1).getD JSNum.nan)

/-- Source `isTimeValid` (lines 84-90), with `doctor.availableTime` as a
parameter: some window has `mins >= start && mins + 10 <= end`. -/
def isTimeValid (availableTime : List Str) (timeStr : Str) : Bool :=
  let mins := parseTime timeStr
  availableTime.any fun slot =>
    JSNum.ge mins (windowBounds slot).1 &&
      JSNum.le (JSNum.add mins (JSNum.fin 10)) (windowBounds slot).2

/-- The `while (start + 10 <= end)` loop of lines 107-114 on integer bounds:
the first candidate whose formatted string is not taken, `none` when the loop
ends without one. The first argument bounds the number of iterations. -/
def scanLoop (takenTimes : List Str) : Nat → Nat → Nat → Option Str
  | 0, _, _ => none
  | fuel + 1, start, stop =>
    if start + 10 ≤ stop then
      let candidate := formatTime (JSNum.fin start)
      if !takenTimes.contains candidate then some candidate
      else scanLoop takenTimes fuel (start + 10) stop
    else none

/-- The loop of lines 107-114 for one window: with a `NaN` bound the condition
`start + 10 <= end` is false at once; otherwise the loop runs, and `stop`
iterations are more than it can make. -/
def scanWindow (takenTimes : List Str) (start stop : JSNum) : Option Str :=
  match start, stop with
  | JSNum.fin s, JSNum.fin e => scanLoop takenTimes e s e
  | _, _ => none

/-- Outcome of the auto-assignment loop over the windows. -/
inductive AutoResult where
  | found (time : Str) : AutoResult
  | exhausted : AutoResult
  | threw : AutoResult
  deriving DecidableEq, Repr

/-- The `for (const slot of doctor.availableTime)` loop of lines 103-116. A
window string without the separator leaves `endStr` undefined and
`parseTime(endStr)` throws a TypeError, caught by the handler at line 144. A
candidate is never the empty string, so `if (finalTime) break` leaves the loop
exactly when the window produced one. -/
def autoAssign (takenTimes : List Str) : List Str → AutoResult
  | [] => AutoResult.exhausted
  | slot :: rest =>
    match jsSplit windowSep slot with
    | startStr :: endStr :: _ =>
      match scanWindow takenTimes (parseTime startStr) (parseTime endStr) with
      | some candidate => AutoResult.found candidate
      | none => autoAssign takenTimes rest
    | _ => AutoResult.threw

/-- Lines 92-121: the explicit branch validates the requested time against the
windows, then against the taken times, and keeps it as it is; the other branch
auto-assigns. -/
def chooseTime (availableTime takenTimes : List Str) (time : Option Str) : Result Str :=
  match truthy time with
  | some t =>
    if !isTimeValid availableTime t then
      Result.error (Response.badRequest "Time not within doctor's available slots".toList)
    else if takenTimes.contains t then
      Result.error (Response.badRequest "Selected time is already booked".toList)
    else Result.ok t
  | none =>
    match autoAssign takenTimes availableTime with
    | AutoResult.found t => Result.ok t
    | AutoResult.exhausted =>
      Result.error (Response.badRequest "All slots are full for selected date".toList)
    | AutoResult.threw => Result.error Response.serverError

/-! ## Booking orchestration (`bookAppointment`, lines 32-148) -/

/-- Lines 41-46: `appointmentDate < today`; an invalid date compares false. -/
def isPastDate (env : Env) (date : Str) : Bool :=
  match env.dateValue date with
  | some t => decide (t < env.todayStart)
  | none => false

/-- Lines 48-65: an existing patient is looked up (an identifier that does not
cast makes `findById` throw), inline details must all be truthy and create a
new patient record, and a request with neither is rejected. -/
def resolvePatient (env : Env) (st : Store) (req : BookRequest) :
    Store × Result (Nat × Str) :=
  match truthy req.patientId with
  | some pidStr =>
    match env.objectId pidStr with
    | none => (st, Result.error Response.serverError)
    | some pid =>
      match st.patients.find? (fun p => p.id == pid) with
      | none => (st, Result.error (Response.badRequest "Patient not found".toList))
      | some existing => (st, Result.ok (existing.id, existing.name))
  | none =>
    match req.patient with
    | some details =>
      match truthy details.name, details.age, truthy details.gender, truthy details.phone with
      | some name, some (age + 1), some gender, some phone =>
        if env.patientAccepted name (age + 1) gender phone then
          let created : Patient :=
            { id := st.nextId, name := name, age := age + 1, gender := gender, phone := phone }
          ({ st with patients := st.patients ++ [created], nextId := st.nextId + 1 },
            Result.ok (created.id, created.name))
        else (st, Result.error Response.serverError)
      | _, _, _, _ => (st, Result.error (Response.badRequest "Incomplete patient details".toList))
    | none => (st, Result.error (Response.badRequest "Patient details are required".toList))

/-- Line 81-82: the times of the stored appointments of a doctor and date. -/
def takenTimes (st : Store) (doctorId : Nat) (date : Str) : List Str :=
  (st.appointments.filter (fun a => a.doctorId == doctorId && a.date == date)).map (fun a => a.time)

/-- Lines 123-143: the appointment is created with the schema defaults and
returned together with the doctor's name. -/
def createAppointment (st1 : Store) (patient : Nat × Str) (doctorId : Nat) (date : Str)
    (finalTime : Str) (doctor : Doctor) : Store × Response :=
  let appointment : Appointment :=
    { id := st1.nextId, patientId := patient.1, patientName := patient.2,
      doctorId := doctorId, date := date, time := finalTime, fee := doctor.fee,
      paymentStatus := "Pending".toList, status := "Booked".toList }
  ({ st1 with appointments := st1.appointments ++ [appointment], nextId := st1.nextId + 1 },
    Response.created appointment doctor.name)

/-- Source `bookAppointment`: the new store and the response. -/
def bookAppointment (env : Env) (st : Store) (req : BookRequest) : Store × Response :=
  match (truthy req.doctorId).bind env.objectId with
  | none => (st, Response.badRequest "Invalid doctor ID".toList)
  | some doctorId =>
    match truthy req.date with
    | none => (st, Response.badRequest "Appointment date is required".toList)
    | some date =>
      if isPastDate env date then
        (st, Response.badRequest "Cannot book an appointment for a past date".toList)
      else
        match resolvePatient env st req with
        | (st1, Result.error r) => (st1, r)
        | (st1, Result.ok patient) =>
          match st1.doctors.find? (fun d => d.id == doctorId) with
          | none => (st1, Response.badRequest "Doctor not found".toList)
          | some doctor =>
            let dayName := env.dayName date
            if !doctor.availableDays.contains dayName then
              (st1, Response.badRequest ("Doctor not available on ".toList ++ dayName ++
                ". Available: ".toList ++ joinWith ", ".toList doctor.availableDays))
            else if doctor.availableTime.isEmpty then
              (st1, Response.badRequest "Doctor's available time is not set".toList)
            else
              match chooseTime doctor.availableTime (takenTimes st1 doctorId date) req.time with
              | Result.error r => (st1, r)
              | Result.ok finalTime => createAppointment st1 patient doctorId date finalTime doctor

/-! ## Dates and the platform clock -/

/-- The number of days from 1970-01-01 to the civil date `y-m-d` (negative
before it), by the era decomposition of the proleptic Gregorian calendar; a day
number beyond the end of the month counts on into the next month. -/
def daysFromCivil (y m d : Nat) : Int :=
  let yy := y + 400 - (if m ≤ 2 then 1 else 0)
  let era := yy / 400
  let yoe := yy % 400
  let mp := if m > 2 then m - 3 else m + 9
  let doy := (153 * mp + 2) / 5 + d - 1
  let doe := yoe * 365 + yoe / 4 - yoe / 100 + doy
  ((era * 146097 + doe : Nat) : Int) - 719468 - 146097

/-- The date-only ISO form `YYYY-MM-DD`: year, month 01..12, day 01..31. A day
past the end of its month is accepted and rolls over into the next month, as
the platform's parser does. -/
def parseIsoDate (s : Str) : Option (Nat × Nat × Nat) :=
  match s with
  | [y1, y2, y3, y4, s1, m1, m2, s2, d1, d2] =>
    if s1 == '-' && s2 == '-' && [y1, y2, y3, y4, m1, m2, d1, d2].all Char.isDigit then
      let y := digitsVal [y1, y2, y3, y4]
      let m := digitsVal [m1, m2]
      let d := digitsVal [d1, d2]
      if 1 ≤ m ∧ m ≤ 12 ∧ 1 ≤ d ∧ d ≤ 31 then some (y, m, d) else none
    else none
  | _ => none

/-- Milliseconds of a day. -/
def msPerDay : Int := 86400000

/-- The time value of `new Date(date)` (line 41) for a date-only ISO string: the
UTC midnight of that date. Any other string is taken to be an invalid date
(`none`); the other formats that `Date` accepts are not part of this model. -/
def dateValue (date : Str) : Option Int :=
  (parseIsoDate date).map fun ymd => daysFromCivil ymd.1 ymd.2.1 ymd.2.2 * msPerDay

/-- The English weekday names, Sunday first. -/
def weekdayNames : List Str :=
  ["Sunday".toList, "Monday".toList, "Tuesday".toList, "Wednesday".toList,
    "Thursday".toList, "Friday".toList, "Saturday".toList]

/-- Source `getDayName` (lines 24-27): the weekday, in UTC, of the UTC midnight
of the date; 1970-01-01 was a Thursday. An invalid date prints as
`Invalid Date`. -/
def getDayName (dateString : Str) : Str :=
  match parseIsoDate dateString with
  | some ymd =>
    weekdayNames.getD ((daysFromCivil ymd.1 ymd.2.1 ymd.2.2 + 4) % 7).toNat "Invalid Date".toList
  | none => "Invalid Date".toList

/-- The server clock: the current instant in milliseconds since the epoch and
the offset of the server's local time from UTC in minutes (local = UTC + offset). -/
structure Clock where
  now : Int
  offsetMinutes : Int
  deriving DecidableEq, Repr

/-- The local calendar day of the current instant, as a day number since the epoch. -/
def localDay (clock : Clock) : Int := (clock.now + clock.offsetMinutes * 60000) / msPerDay

/-- Lines 42-43: `today = new Date(); today.setHours(0, 0, 0, 0)`, the instant of
the local midnight that starts the current local day. -/
def todayStart (clock : Clock) : Int := localDay clock * msPerDay - clock.offsetMinutes * 60000

/-- The platform of a server with the given clock: dates and weekdays as above. -/
def platformEnv (clock : Clock) (objectId : Str → Option Nat)
    (patientAccepted : Str → Nat → Str → Str → Bool) : Env :=
  { objectId := objectId
    dateValue := dateValue
    todayStart := todayStart clock
    dayName := getDayName
    patientAccepted := patientAccepted }

/-! ## Status update (`updateAppointmentStatus`, lines 260-283) -/

/-- The outcome of a status update: 400, 404, 200 with the updated appointment,
or 500 after a caught exception. -/
inductive UpdateResponse where
  | badRequest (message : Str) : UpdateResponse
  | notFound (message : Str) : UpdateResponse
  | ok (appointment : Appointment) : UpdateResponse
  | serverError : UpdateResponse
  deriving DecidableEq, Repr

/-- Line 265: the values the controller accepts. -/
def validStatuses : List Str :=
  ["Booked".toList, "Completed".toList, "Cancelled".toList, "Scheduled".toList, "Pending".toList]

/-- The `enum` of `status` in `models/Appointment.js`, line 13. -/
def statusEnum : List Str :=
  ["Booked".toList, "Completed".toList, "Cancelled".toList, "Scheduled".toList]

/-- The effect of `findByIdAndUpdate(id, { status }, { new: true })` on the
collection: the first document with the identifier gets the status, and is
returned; `none` when there is none. The call sets no `runValidators` option,
so the schema `enum` is not checked on this path. -/
def setStatus (id : Nat) (status : Str) : List Appointment → Option (Appointment × List Appointment)
  | [] => none
  | a :: rest =>
    if a.id == id then some ({ a with status := status }, { a with status := status } :: rest)
    else (setStatus id status rest).map fun r => (r.1, a :: r.2)

/-- Source `updateAppointmentStatus`: the status is checked against
`validStatuses` first; an identifier that does not cast makes the query throw. -/
def updateAppointmentStatus (env : Env) (st : Store) (appointmentId : Str)
    (status : Option Str) : Store × UpdateResponse :=
  match status with
  | none => (st, UpdateResponse.badRequest "Invalid status".toList)
  | some s =>
    if !validStatuses.contains s then (st, UpdateResponse.badRequest "Invalid status".toList)
    else
      match env.objectId appointmentId with
      | none => (st, UpdateResponse.serverError)
      | some id =>
        match setStatus id s st.appointments with
        | none => (st, UpdateResponse.notFound "Appointment not found".toList)
        | some (updated, appointments) =>
          ({ st with appointments := appointments }, UpdateResponse.ok updated)

/-! ## Notions used to state the properties -/

/-- The request passes every step that precedes the slot allocation: the doctor
identifier is valid, the date is present and not past, the patient resolves
(leaving the store `st1`), the doctor exists, works on the weekday of the date
and has at least one window. -/
def ReachesAllocation (env : Env) (st : Store) (req : BookRequest) (st1 : Store)
    (doctorId : Nat) (date : Str) (patient : Nat × Str) (doctor : Doctor) : Prop :=
  (truthy req.doctorId).bind env.objectId = some doctorId ∧
  truthy req.date = some date ∧
  isPastDate env date = false ∧
  resolvePatient env st req = (st1, Result.ok patient) ∧
  st1.doctors.find? (fun d => d.id == doctorId) = some doctor ∧
  doctor.availableDays.contains (env.dayName date) = true ∧
  doctor.availableTime.isEmpty = false

instance (env : Env) (st : Store) (req : BookRequest) (st1 : Store) (doctorId : Nat) (date : Str)
    (patient : Nat × Str) (doctor : Doctor) :
    Decidable (ReachesAllocation env st req st1 doctorId date patient doctor) := by
  unfold ReachesAllocation
  infer_instance

/-- A window string that contains the separator: it splits into a start piece
and an end piece (and possibly more). -/
def HasBounds (slot : Str) : Prop := 2 ≤ (jsSplit windowSep slot).length

instance (slot : Str) : Decidable (HasBounds slot) := by
  unfold HasBounds
  infer_instance

/-- The candidate start times of one window as the specification enumerates
them: `start`, `start + 10`, `start + 20`, ... while `c + 10 <= stop`. -/
def specWindowCandidates (start stop : Nat) : List Nat :=
  (List.range ((stop - start) / 10)).map (fun k => start + 10 * k)

/-- The candidates of a window string: those of its parsed bounds, none when a
bound is not a number. -/
def specSlotCandidates (slot : Str) : List Nat :=
  match windowBounds slot with
  | (JSNum.fin s, JSNum.fin e) => specWindowCandidates s e
  | _ => []

/-- The enumeration of the specification: the windows in declared order, each
with its candidates in increasing order. -/
def specCandidates (availableTime : List Str) : List Nat :=
  availableTime.flatMap specSlotCandidates

/-- The time `t` is the formatted first candidate of the enumeration that is
not booked: every candidate before it is booked. -/
def FirstFree (availableTime takenTimes : List Str) (t : Str) : Prop :=
  ∃ before c after, specCandidates availableTime = before ++ c :: after ∧
    (∀ x ∈ before, formatTime (JSNum.fin x) ∈ takenTimes) ∧
    formatTime (JSNum.fin c) ∉ takenTimes ∧ t = formatTime (JSNum.fin c)

/-- The auto-assignment as the specification words it: the formatted first
candidate of the enumeration that is not booked, and the exhausted outcome when
every candidate is booked. -/
def specAutoAssign (takenTimes availableTime : List Str) : AutoResult :=
  match (specCandidates availableTime).find?
      (fun c => !takenTimes.contains (formatTime (JSNum.fin c))) with
  | some c => AutoResult.found (formatTime (JSNum.fin c))
  | none => AutoResult.exhausted

/-- The end bound of a window is a time of the day: at most 1440 minutes (a
window whose end is not a number has no candidates and counts as well). -/
def EndsByMidnight (slot : Str) : Prop :=
  match (windowBounds slot).2 with
  | JSNum.fin e => e ≤ 1440
  | JSNum.nan => True

instance (slot : Str) : Decidable (EndsByMidnight slot) := by
  unfold EndsByMidnight
  split <;> infer_instance

/-- The hour, minute and meridiem fields of a clock string of the shape
`H:MM XX` or `HH:MM XX`. -/
def clockFields (s : Str) : Option (Str × Str × Str) :=
  match s with
  | [h1, c, m1, m2, sp, p1, p2] =>
    if c == ':' && sp == ' ' then some ([h1], [m1, m2], [p1, p2]) else none
  | [h1, h2, c, m1, m2, sp, p1, p2] =>
    if c == ':' && sp == ' ' then some ([h1, h2], [m1, m2], [p1, p2]) else none
  | _ => none

/-- A well-formed clock string: hour digits denoting 1..12, two minute digits
denoting 00..59, and the meridiem AM or PM. -/
def isClock (s : Str) : Bool :=
  match clockFields s with
  | some (hs, ms, md) =>
    hs.all Char.isDigit && ms.all Char.isDigit && decide (1 ≤ digitsVal hs) &&
      decide (digitsVal hs ≤ 12) && decide (digitsVal ms ≤ 59) &&
      (md == "AM".toList || md == "PM".toList)
  | none => false

/-- A well-formed window: two well-formed clock strings joined by the separator. -/
def isWindow (slot : Str) : Bool :=
  match jsSplit windowSep slot with
  | [a, b] => isClock a && isClock b
  | _ => false

/-- The hour and minute pieces that `parseTime` converts with `Number`: the
pieces of the first blank-separated part, split at the colon. -/
def timeFields (timeStr : Str) : List Str :=
  jsSplit [':'] ((jsSplit [' '] timeStr).headD [])

/-- Letters that occur in no numeric literal read by `Number` (they are no
decimal or hexadecimal digit, no exponent or radix marker, no letter of
`Infinity`) and are no white space: a string holding one converts to `NaN`. -/
def neverNumeric (c : Char) : Bool := "ghjklmpqrsuvwzGHJKLMNPQRSTUVWYZ".toList.contains c

/-- A field that `Number` converts exactly to the integer of the model: decimal
digits only, of a value far below 2^53. -/
def exactField (f : Str) : Bool := f.all Char.isDigit && decide (digitsVal f ≤ 1000000000000)

/-- The value of the time string is `NaN` in the code as in the model: the
minute piece is missing, or the hour or minute piece holds a letter of no
numeric literal. -/
def certainNaN (timeStr : Str) : Bool :=
  decide ((timeFields timeStr).length < 2) ||
    ((timeFields timeStr).take 2).any (fun f => f.any neverNumeric)

/-- The time string is inside the modelled fragment: `parseTime` of the model
gives the value that the code computes, `NaN` for certain or an exact integer. -/
def faithfulTime (timeStr : Str) : Bool :=
  certainNaN timeStr || ((timeFields timeStr).take 2).all exactField

/-- The window string is inside the modelled fragment: its start and end
pieces are. -/
def faithfulWindow (slot : Str) : Bool :=
  ((jsSplit windowSep slot).take 2).all faithfulTime

/-! ## Sample data -/

/-- A platform in which `d1` and `p1` are identifiers, every date is a future
Monday and every patient record is accepted. -/
def sampleEnv : Env :=
  { objectId := fun s => if s = "d1".toList then some 1 else if s = "p1".toList then some 2 else none
    dateValue := fun _ => some 86400000
    todayStart := 0
    dayName := fun _ => "Monday".toList
    patientAccepted := fun _ _ _ _ => true }

/-- The sample doctor with the given windows. -/
def sampleDoctor (windows : List Str) : Doctor :=
  { id := 1, name := "Dr Rao".toList, availableDays := ["Monday".toList],
    availableTime := windows, fee := 500 }

/-- A stored appointment of the sample doctor on the sample date. -/
def sampleAppointment (id : Nat) (time : Str) : Appointment :=
  { id := id, patientId := 2, patientName := "Asha".toList, doctorId := 1,
    date := "2030-01-07".toList, time := time, fee := 500,
    paymentStatus := "Pending".toList, status := "Booked".toList }

/-- A store with one patient, the sample doctor and one appointment per booked time. -/
def sampleStore (windows booked : List Str) : Store :=
  { patients := [{ id := 2, name := "Asha".toList, age := 30, gender := "F".toList,
                   phone := "555".toList }]
    doctors := [sampleDoctor windows]
    appointments := (List.range booked.length).zipWith (fun i t => sampleAppointment (10 + i) t) booked
    nextId := 10 + booked.length }

/-- A request of the stored patient with the sample doctor on the sample date. -/
def sampleRequest (time : Option Str) : BookRequest :=
  { patientId := some "p1".toList, patient := none, doctorId := some "d1".toList,
    date := some "2030-01-07".toList, time := time }

/-- A server clock at 2030-01-07 12:00 UTC in the UTC zone. -/
def utcNoon : Clock := { now := 1894017600000, offsetMinutes := 0 }

/-- A server clock at 2030-01-07 17:00 UTC, that is 12:00 local time, in a zone
five hours behind UTC. -/
def westNoon : Clock := { now := 1894035600000, offsetMinutes := -300 }

/-- The platform of a clock with the identifiers of `sampleEnv` and `a10` for
the stored appointment 10. -/
def clockEnv (clock : Clock) : Env :=
  platformEnv clock
    (fun s => if s = "a10".toList then some 10 else sampleEnv.objectId s)
    (fun _ _ _ _ => true)

/-- Complete inline details of a new patient. -/
def sampleDetails : PatientInput :=
  { name := some "Ravi".toList, age := some 41, gender := some "M".toList,
    phone := some "777".toList }

/-- The stored appointment 10 with status Completed. -/
def sampleCompleted : Appointment :=
  { sampleAppointment 10 "9:00 AM".toList with status := "Completed".toList }

/-- A store whose only appointment is the completed one. -/
def completedStore : Store :=
  { sampleStore ["09:00 AM - 09:30 AM".toList] [] with appointments := [sampleCompleted] }

/-- A store whose only appointment is dated 2030-01-06. -/
def yesterdayStore : Store :=
  { sampleStore ["09:00 AM - 09:30 AM".toList] [] with
      appointments := [{ sampleAppointment 10 "9:00 AM".toList with date := "2030-01-06".toList }] }

/-! ## Lemmas on the string built-ins -/

theorem startsWith_single (c x : Char) (xs : Str) : startsWith [c] (x :: xs) = (c == x) := by
  simp [startsWith]

theorem splitGo_single_noSep (c : Char) (s cur : Str) (h : c ∉ s) :
    splitGo [c] 0 s cur = [cur.reverse ++ s] := by
  induction s generalizing cur with
  | nil => simp [splitGo]
  | cons x xs ih =>
    have hx : c ≠ x := fun e => h (by simp [e])
    have hxs : c ∉ xs := fun e => h (by simp [e])
    simp [splitGo, startsWith_single, hx, ih _ hxs]

theorem splitGo_single_sep (c : Char) (s rest cur : Str) (h : c ∉ s) :
    splitGo [c] 0 (s ++ c :: rest) cur = (cur.reverse ++ s) :: splitGo [c] 0 rest [] := by
  induction s generalizing cur with
  | nil => simp [splitGo, startsWith_single]
  | cons x xs ih =>
    have hx : c ≠ x := fun e => h (by simp [e])
    have hxs : c ∉ xs := fun e => h (by simp [e])
    simp [splitGo, startsWith_single, hx, ih _ hxs]

theorem jsSplit_single_noSep (c : Char) (s : Str) (h : c ∉ s) : jsSplit [c] s = [s] := by
  simp [jsSplit, splitGo_single_noSep c s [] h]

theorem jsSplit_single_sep (c : Char) (s rest : Str) (h : c ∉ s) :
    jsSplit [c] (s ++ c :: rest) = s :: jsSplit [c] rest := by
  simp [jsSplit, splitGo_single_sep c s rest [] h]

theorem not_mem_of_allDigits (s : Str) (c : Char) (hc : c.isDigit = false)
    (h : s.all Char.isDigit = true) : c ∉ s := by
  intro hm
  have := List.all_eq_true.mp h c hm
  simp [hc] at this

/-- On a string `hs:ms md` whose three fields contain neither blank nor colon,
`parseTime` converts `hs` and `ms` and adjusts the hour by `md`. -/
theorem parseTime_fields (hs ms md : Str)
    (h1 : ' ' ∉ hs) (h2 : ':' ∉ hs) (h3 : ' ' ∉ ms) (h4 : ':' ∉ ms) (h5 : ' ' ∉ md) :
    parseTime (hs ++ ':' :: ms ++ ' ' :: md) = clockValue (some md) (toNumber hs) (toNumber ms) := by
  have hsp : ' ' ∉ hs ++ ':' :: ms := by
    simp only [List.mem_append, List.mem_cons, not_or]
    exact ⟨h1, by decide, h3⟩
  have e1 : jsSplit [' '] (hs ++ ':' :: ms ++ ' ' :: md) = [hs ++ ':' :: ms, md] := by
    have := jsSplit_single_sep ' ' (hs ++ ':' :: ms) md hsp
    rw [jsSplit_single_noSep ' ' md h5] at this
    simpa using this
  have e2 : jsSplit [':'] (hs ++ ':' :: ms) = [hs, ms] := by
    rw [jsSplit_single_sep ':' hs ms h2, jsSplit_single_noSep ':' ms h4]
  simp only [parseTime, clockValue, e1, e2, List.headD_cons, List.map_cons, List.map_nil]
  rfl


set_option maxRecDepth 4000 in
theorem natToStr_small : ∀ n < 60, (natToStr n).all Char.isDigit = true ∧
    toNumber (natToStr n) = JSNum.fin n ∧
    (padStart 2 '0' (natToStr n)).all Char.isDigit = true ∧
    toNumber (padStart 2 '0' (natToStr n)) = JSNum.fin n := by
  decide

theorem formatTime_fin (m : Nat) :
    formatTime (JSNum.fin m) =
      natToStr (if m / 60 % 12 = 0 then 12 else m / 60 % 12) ++ ':' :: padStart 2 '0' (natToStr (m % 60))
        ++ ' ' :: (if m / 60 ≥ 12 then "PM".toList else "AM".toList) := by
  simp [formatTime]

/-- What `parseTime` reads back from a formatted time: the hour label `fh`
in 1..12 and the minutes `mn` below 60, adjusted by the period `md`. -/
theorem parseTime_label (fh mn : Nat) (md : Str) (h1 : fh < 60) (h2 : mn < 60) (h3 : ' ' ∉ md) :
    parseTime (natToStr fh ++ ':' :: padStart 2 '0' (natToStr mn) ++ ' ' :: md) =
      clockValue (some md) (JSNum.fin fh) (JSNum.fin mn) := by
  obtain ⟨a1, a2, _, _⟩ := natToStr_small fh h1
  obtain ⟨_, _, b3, b4⟩ := natToStr_small mn h2
  rw [parseTime_fields _ _ _ (not_mem_of_allDigits _ _ (by decide) a1)
    (not_mem_of_allDigits _ _ (by decide) a1) (not_mem_of_allDigits _ _ (by decide) b3)
    (not_mem_of_allDigits _ _ (by decide) b3) h3, a2, b4]

theorem clockValue_PM (h m : Nat) : clockValue (some "PM".toList) (JSNum.fin h) (JSNum.fin m) =
    JSNum.fin ((if h < 12 then h + 12 else h) * 60 + m) := by
  have e1 : (some "PM".toList = some "AM".toList) = False := by decide
  by_cases hh : h < 12 <;> simp [clockValue, JSNum.lt, JSNum.add, JSNum.mul, JSNum.strictEq, hh, e1]

theorem clockValue_AM (h m : Nat) : clockValue (some "AM".toList) (JSNum.fin h) (JSNum.fin m) =
    JSNum.fin ((if h = 12 then 0 else h) * 60 + m) := by
  have e1 : (some "AM".toList = some "PM".toList) = False := by decide
  by_cases hh : h = 12 <;> simp [clockValue, JSNum.lt, JSNum.add, JSNum.mul, JSNum.strictEq, hh, e1]

theorem parse_format_roundtrip (m : Nat) (hm : m ≤ 1439) :
    parseTime (formatTime (JSNum.fin m)) = JSNum.fin m := by
  rw [formatTime_fin]
  have hfh : (if m / 60 % 12 = 0 then 12 else m / 60 % 12) < 60 := by split <;> omega
  have hmn : m % 60 < 60 := Nat.mod_lt _ (by decide)
  by_cases hp : m / 60 ≥ 12
  · rw [if_pos hp, parseTime_label _ _ _ hfh hmn (by decide), clockValue_PM]
    congr 1
    split <;> split <;> omega
  · rw [if_neg hp, parseTime_label _ _ _ hfh hmn (by decide), clockValue_AM]
    congr 1
    split <;> split <;> omega

/-! ## Lemmas on the booking orchestration -/

theorem bookAppointment_of_reaches {env : Env} {st : Store} {req : BookRequest} {st1 : Store}
    {doctorId : Nat} {date : Str} {patient : Nat × Str} {doctor : Doctor}
    (h : ReachesAllocation env st req st1 doctorId date patient doctor) :
    bookAppointment env st req =
      match chooseTime doctor.availableTime (takenTimes st1 doctorId date) req.time with
      | Result.error r => (st1, r)
      | Result.ok finalTime => createAppointment st1 patient doctorId date finalTime doctor := by
  obtain ⟨h1, h2, h3, h4, h5, h6, h7⟩ := h
  simp only [bookAppointment, h1, h2, h3, h4, h5, h6, h7]
  simp

theorem resolvePatient_appointments (env : Env) (st : Store) (req : BookRequest) :
    (resolvePatient env st req).1.appointments = st.appointments ∧
    (resolvePatient env st req).1.doctors = st.doctors := by
  unfold resolvePatient
  repeat' split
  all_goals simp

theorem resolvePatient_error (env : Env) (st : Store) (req : BookRequest) (st1 : Store)
    (r : Response) (h : resolvePatient env st req = (st1, Result.error r)) :
    ∀ a dn, r ≠ Response.created a dn := by
  intro a dn hr
  subst hr
  unfold resolvePatient at h
  repeat' split at h
  all_goals simp at h

theorem chooseTime_error (availableTime taken : List Str) (time : Option Str) (r : Response)
    (h : chooseTime availableTime taken time = Result.error r) :
    ∀ a dn, r ≠ Response.created a dn := by
  intro a dn hr
  subst hr
  unfold chooseTime at h
  repeat' split at h
  all_goals simp at h

theorem reaches_of_created {env : Env} {st : Store} {req : BookRequest} {st2 : Store}
    {a : Appointment} {dn : Str} (h : bookAppointment env st req = (st2, Response.created a dn)) :
    ∃ st1 doctorId date patient doctor t,
      ReachesAllocation env st req st1 doctorId date patient doctor ∧
      chooseTime doctor.availableTime (takenTimes st1 doctorId date) req.time = Result.ok t ∧
      createAppointment st1 patient doctorId date t doctor = (st2, Response.created a dn) := by
  unfold bookAppointment at h
  split at h
  · simp at h
  rename_i doctorId h1
  split at h
  · simp at h
  rename_i date h2
  split at h
  · simp at h
  rename_i h3
  split at h
  · rename_i st1 r h4
    have := resolvePatient_error _ _ _ _ _ h4 a dn
    simp at h
    exact absurd h.2 this
  rename_i st1 patient h4
  split at h
  · simp at h
  rename_i doctor h5
  simp only at h
  split at h
  · simp at h
  rename_i h6
  split at h
  · simp at h
  rename_i h7
  split at h
  · rename_i r h8
    have := chooseTime_error _ _ _ _ h8 a dn
    simp at h
    exact absurd h.2 this
  rename_i t h8
  refine ⟨st1, doctorId, date, patient, doctor, t, ⟨h1, h2, ?_, h4, h5, ?_, ?_⟩, h8, h⟩
  · simpa using h3
  · simpa using h6
  · simpa using h7


/-! ## Lemmas on the auto-assignment loop -/

theorem specWindowCandidates_step (s e : Nat) :
    specWindowCandidates s e =
      if s + 10 ≤ e then s :: specWindowCandidates (s + 10) e else [] := by
  unfold specWindowCandidates
  split
  · have hk : (e - s) / 10 = (e - (s + 10)) / 10 + 1 := by omega
    rw [hk, List.range_succ_eq_map]
    simp only [List.map_cons, List.map_map, Nat.mul_zero, Nat.add_zero, List.cons.injEq, true_and]
    apply List.map_congr_left
    intro k _
    simp only [Function.comp, Nat.succ_eq_add_one]
    omega
  · have hk : (e - s) / 10 = 0 := by omega
    simp [hk]

theorem scanLoop_eq (taken : List Str) (fuel s e : Nat) (hf : (e - s) / 10 ≤ fuel) :
    scanLoop taken fuel s e =
      ((specWindowCandidates s e).find?
        (fun c => !taken.contains (formatTime (JSNum.fin c)))).map
        (fun c => formatTime (JSNum.fin c)) := by
  induction fuel generalizing s with
  | zero =>
    have hk : ¬ s + 10 ≤ e := by omega
    rw [specWindowCandidates_step, if_neg hk]
    simp [scanLoop]
  | succ n ih =>
    rw [specWindowCandidates_step]
    unfold scanLoop
    by_cases hk : s + 10 ≤ e
    · rw [if_pos hk, if_pos hk]
      by_cases hc : taken.contains (formatTime (JSNum.fin s)) = true
      · rw [List.find?_cons_of_neg _ (by simp only [hc]; decide)]
        simp only [hc, Bool.not_true, Bool.false_eq_true, if_false]
        exact ih (s + 10) (by omega)
      · have hc2 : taken.contains (formatTime (JSNum.fin s)) = false := by simpa using hc
        rw [List.find?_cons_of_pos _ (by simp only [hc2]; decide)]
        simp only [hc2, Bool.not_false, if_true, Option.map_some']
    · rw [if_neg hk, if_neg hk]
      simp

theorem scanWindow_eq (taken : List Str) (slot a b : Str) (tl : List Str)
    (h : jsSplit windowSep slot = a :: b :: tl) :
    scanWindow taken (parseTime a) (parseTime b) =
      ((specSlotCandidates slot).find?
        (fun c => !taken.contains (formatTime (JSNum.fin c)))).map
        (fun c => formatTime (JSNum.fin c)) := by
  have hb : windowBounds slot = (parseTime a, parseTime b) := by
    simp only [windowBounds, h, List.map_cons, List.headD_cons]
    rfl
  unfold specSlotCandidates scanWindow
  rw [hb]
  cases parseTime a with
  | nan => simp
  | fin s =>
    cases parseTime b with
    | nan => simp
    | fin e => exact scanLoop_eq taken e s e (by omega)

theorem autoAssign_threw_or (taken ws : List Str) :
    autoAssign taken ws = AutoResult.threw ∨ autoAssign taken ws = specAutoAssign taken ws := by
  induction ws with
  | nil => right; simp [autoAssign, specAutoAssign, specCandidates]
  | cons slot rest ih =>
    unfold autoAssign
    split
    · rename_i a b tl hsp
      have hw := scanWindow_eq taken slot a b tl hsp
      have hc : specCandidates (slot :: rest) = specSlotCandidates slot ++ specCandidates rest := by
        simp [specCandidates]
      cases hf : (specSlotCandidates slot).find?
          (fun c => !taken.contains (formatTime (JSNum.fin c))) with
      | some c =>
        right
        rw [hf] at hw
        simp only [hw, Option.map_some', specAutoAssign, hc, List.find?_append, hf, Option.or_some]
      | none =>
        rw [hf] at hw
        simp only [hw, Option.map_none']
        rcases ih with ih | ih
        · left; exact ih
        · right
          rw [ih]
          simp only [specAutoAssign, hc, List.find?_append, hf, Option.none_or]
    · left; rfl

theorem autoAssign_ne_threw (taken ws : List Str) (hsep : ∀ w ∈ ws, HasBounds w) :
    autoAssign taken ws ≠ AutoResult.threw := by
  induction ws with
  | nil => simp [autoAssign]
  | cons slot rest ih =>
    have h1 : HasBounds slot := hsep slot (by simp)
    have h2 : ∀ w ∈ rest, HasBounds w := fun w hw => hsep w (by simp [hw])
    unfold autoAssign
    split
    · split
      · simp
      · exact ih h2
    · rename_i hne
      unfold HasBounds at h1
      exfalso
      match hj : jsSplit windowSep slot with
      | [] => rw [hj] at h1; simp at h1
      | [_] => rw [hj] at h1; simp at h1
      | x :: y :: tl => exact hne x y tl hj

theorem autoAssign_eq_spec (taken ws : List Str) (hsep : ∀ w ∈ ws, HasBounds w) :
    autoAssign taken ws = specAutoAssign taken ws := by
  rcases autoAssign_threw_or taken ws with h | h
  · exact absurd h (autoAssign_ne_threw taken ws hsep)
  · exact h

theorem specAutoAssign_found_iff (taken ws : List Str) (t : Str) :
    specAutoAssign taken ws = AutoResult.found t ↔ FirstFree ws taken t := by
  unfold specAutoAssign FirstFree
  constructor
  · intro h
    split at h
    · rename_i c hc
      obtain ⟨hp, as, bs, hl, hall⟩ := List.find?_eq_some.mp hc
      refine ⟨as, c, bs, hl, ?_, ?_, ?_⟩
      · intro x hx
        have := hall x hx
        simpa using this
      · simpa using hp
      · simpa using h.symm
    · simp at h
  · rintro ⟨as, c, bs, hl, hall, hfree, ht⟩
    have hc : (specCandidates ws).find?
        (fun c => !taken.contains (formatTime (JSNum.fin c))) = some c := by
      rw [List.find?_eq_some]
      refine ⟨by simpa using hfree, as, bs, hl, ?_⟩
      intro x hx
      simpa using hall x hx
    rw [hc, ht]

theorem specAutoAssign_exhausted_iff (taken ws : List Str) :
    specAutoAssign taken ws = AutoResult.exhausted ↔
      ∀ c ∈ specCandidates ws, formatTime (JSNum.fin c) ∈ taken := by
  unfold specAutoAssign
  constructor
  · intro h
    split at h
    · simp at h
    · rename_i hn
      intro c hc
      have := List.find?_eq_none.mp hn c hc
      simpa using this
  · intro h
    have hn : (specCandidates ws).find?
        (fun c => !taken.contains (formatTime (JSNum.fin c))) = none := by
      rw [List.find?_eq_none]
      intro c hc
      simpa using h c hc
    rw [hn]


/-! ## Lemmas on the choice of the time -/

theorem truthy_eq_some {time : Option Str} {t : Str} (h : truthy time = some t) :
    time = some t ∧ t ≠ [] := by
  unfold truthy at h
  split at h
  · simp at h; subst h; simp
  · simp at h

theorem truthy_some_of_ne_nil (t : Str) (h : t ≠ []) : truthy (some t) = some t := by
  cases t with
  | nil => exact absurd rfl h
  | cons c cs => rfl

theorem formatTime_ne_nil (c : Nat) : formatTime (JSNum.fin c) ≠ [] := by
  rw [formatTime_fin]
  simp

theorem chooseTime_explicit (ws taken : List Str) (time : Option Str) (t : Str)
    (h : truthy time = some t) :
    chooseTime ws taken time =
      if !isTimeValid ws t then
        Result.error (Response.badRequest "Time not within doctor's available slots".toList)
      else if taken.contains t then
        Result.error (Response.badRequest "Selected time is already booked".toList)
      else Result.ok t := by
  simp only [chooseTime, h]

theorem chooseTime_auto (ws taken : List Str) (time : Option Str) (h : truthy time = none) :
    chooseTime ws taken time =
      match autoAssign taken ws with
      | AutoResult.found t => Result.ok t
      | AutoResult.exhausted =>
        Result.error (Response.badRequest "All slots are full for selected date".toList)
      | AutoResult.threw => Result.error Response.serverError := by
  simp only [chooseTime, h]

theorem autoAssign_found_firstFree (taken ws : List Str) (t : Str)
    (h : autoAssign taken ws = AutoResult.found t) : FirstFree ws taken t := by
  rcases autoAssign_threw_or taken ws with h2 | h2
  · rw [h2] at h; simp at h
  · rw [h2] at h; exact (specAutoAssign_found_iff taken ws t).mp h

theorem chooseTime_ok_not_taken (ws taken : List Str) (time : Option Str) (t : Str)
    (h : chooseTime ws taken time = Result.ok t) : t ∉ taken := by
  cases ht : truthy time with
  | some u =>
    rw [chooseTime_explicit ws taken time u ht] at h
    split at h
    · simp at h
    · split at h
      · simp at h
      · rename_i hc
        simp only [Result.ok.injEq] at h
        subst h
        simpa using hc
  | none =>
    rw [chooseTime_auto ws taken time ht] at h
    split at h
    · rename_i u hu
      simp only [Result.ok.injEq] at h
      subst h
      obtain ⟨_, c, _, _, _, hfree, hu2⟩ := autoAssign_found_firstFree taken ws u hu
      rw [hu2]; exact hfree
    · simp at h
    · simp at h

theorem takenTimes_congr (st st1 : Store) (h : st1.appointments = st.appointments)
    (doctorId : Nat) (date : Str) : takenTimes st1 doctorId date = takenTimes st doctorId date := by
  simp [takenTimes, h]

theorem takenTimes_reaches {env : Env} {st : Store} {req : BookRequest} {st1 : Store}
    {doctorId : Nat} {date : Str} {patient : Nat × Str} {doctor : Doctor}
    (h : ReachesAllocation env st req st1 doctorId date patient doctor) :
    st1.appointments = st.appointments ∧ st1.doctors = st.doctors ∧
      takenTimes st1 doctorId date = takenTimes st doctorId date := by
  obtain ⟨_, _, _, h4, _⟩ := h
  have := resolvePatient_appointments env st req
  rw [h4] at this
  exact ⟨this.1, this.2, takenTimes_congr _ _ this.1 _ _⟩

theorem createAppointment_eq {st1 st2 : Store} {patient : Nat × Str} {doctorId : Nat} {date t : Str}
    {doctor : Doctor} {a : Appointment} {dn : Str}
    (h : createAppointment st1 patient doctorId date t doctor = (st2, Response.created a dn)) :
    a.doctorId = doctorId ∧ a.date = date ∧ a.time = t ∧
      st2.appointments = st1.appointments ++ [a] ∧ st2.doctors = st1.doctors ∧
      st2.patients = st1.patients := by
  simp only [createAppointment, Prod.mk.injEq, Response.created.injEq] at h
  obtain ⟨h1, h2, _⟩ := h
  subst h1 h2
  simp

theorem takenTimes_append (st st2 : Store) (a : Appointment)
    (h : st2.appointments = st.appointments ++ [a]) :
    takenTimes st2 a.doctorId a.date = takenTimes st a.doctorId a.date ++ [a.time] := by
  simp [takenTimes, h, List.filter_append]


theorem isTimeValid_iff_aux (ws : List Str) (t : Str) :
    isTimeValid ws t = true ↔ ∃ r, parseTime t = JSNum.fin r ∧ ∃ w ∈ ws, ∃ s e,
      windowBounds w = (JSNum.fin s, JSNum.fin e) ∧ s ≤ r ∧ r + 10 ≤ e := by
  unfold isTimeValid
  simp only [List.any_eq_true, Bool.and_eq_true]
  constructor
  · rintro ⟨w, hw, h1, h2⟩
    cases hp : parseTime t with
    | nan => rw [hp] at h1; simp [JSNum.ge] at h1
    | fin r =>
      rw [hp] at h1 h2
      cases hs : (windowBounds w).1 with
      | nan => rw [hs] at h1; simp [JSNum.ge] at h1
      | fin s =>
        cases he : (windowBounds w).2 with
        | nan => rw [he] at h2; simp [JSNum.le, JSNum.add] at h2
        | fin e =>
          rw [hs] at h1
          rw [he] at h2
          refine ⟨r, rfl, w, hw, s, e, Prod.ext hs he, ?_, ?_⟩
          · simpa [JSNum.ge] using h1
          · simpa [JSNum.le, JSNum.add] using h2
  · rintro ⟨r, hp, w, hw, s, e, hb, h1, h2⟩
    refine ⟨w, hw, ?_, ?_⟩
    · rw [hp, hb]; simp [JSNum.ge, h1]
    · rw [hp, hb]; simp [JSNum.le, JSNum.add, h2]

theorem mem_specWindowCandidates {s e c : Nat} (h : c ∈ specWindowCandidates s e) :
    s ≤ c ∧ c + 10 ≤ e := by
  unfold specWindowCandidates at h
  simp only [List.mem_map, List.mem_range] at h
  obtain ⟨k, hk, rfl⟩ := h
  omega

theorem mem_specCandidates {ws : List Str} {c : Nat} (h : c ∈ specCandidates ws) :
    ∃ w ∈ ws, ∃ s e, windowBounds w = (JSNum.fin s, JSNum.fin e) ∧ s ≤ c ∧ c + 10 ≤ e := by
  unfold specCandidates at h
  simp only [List.mem_flatMap] at h
  obtain ⟨w, hw, hc⟩ := h
  unfold specSlotCandidates at hc
  split at hc
  · rename_i s e hb
    exact ⟨w, hw, s, e, hb, mem_specWindowCandidates hc⟩
  · simp at hc

theorem chooseTime_ok_valid (ws taken : List Str) (time : Option Str) (t : Str)
    (h : chooseTime ws taken time = Result.ok t)
    (hmid : truthy time = none → ∀ w ∈ ws, EndsByMidnight w) :
    isTimeValid ws t = true ∧ t ≠ [] := by
  cases ht : truthy time with
  | some u =>
    rw [chooseTime_explicit ws taken time u ht] at h
    split at h
    · simp at h
    · rename_i hv
      split at h
      · simp at h
      · simp only [Result.ok.injEq] at h
        subst h
        exact ⟨by simpa using hv, (truthy_eq_some ht).2⟩
  | none =>
    rw [chooseTime_auto ws taken time ht] at h
    cases hauto : autoAssign taken ws with
    | exhausted => rw [hauto] at h; simp at h
    | threw => rw [hauto] at h; simp at h
    | found u =>
      rw [hauto] at h
      simp only [Result.ok.injEq] at h
      subst h
      obtain ⟨before, c, rest, hl, _, _, hu⟩ := autoAssign_found_firstFree taken ws u hauto
      have hc : c ∈ specCandidates ws := by rw [hl]; simp
      obtain ⟨w, hw, s, e, hb, h1, h2⟩ := mem_specCandidates hc
      have he : e ≤ 1440 := by
        have := hmid ht w hw
        unfold EndsByMidnight at this
        rw [hb] at this
        exact this
      refine ⟨?_, by rw [hu]; exact formatTime_ne_nil c⟩
      rw [isTimeValid_iff_aux]
      exact ⟨c, by rw [hu]; exact parse_format_roundtrip c (by omega), w, hw, s, e, hb, h1, h2⟩

theorem JSNum_add_nan (x : JSNum) : JSNum.add x JSNum.nan = JSNum.nan := by
  cases x <;> rfl

theorem clockValue_nan (md : Option Str) (h m : JSNum) (hn : h = JSNum.nan ∨ m = JSNum.nan) :
    clockValue md h m = JSNum.nan := by
  rcases hn with hn | hn
  · subst hn
    simp [clockValue, JSNum.lt, JSNum.strictEq, JSNum.mul, JSNum.add]
  · subst hn
    simp [clockValue, JSNum_add_nan]

theorem parseTime_digits (hs ms md : Str) (hh : hs.all Char.isDigit = true)
    (hm : ms.all Char.isDigit = true) (h5 : ' ' ∉ md) :
    parseTime (hs ++ ':' :: ms ++ ' ' :: md) =
      clockValue (some md) (JSNum.fin (digitsVal hs)) (JSNum.fin (digitsVal ms)) := by
  rw [parseTime_fields _ _ _ (not_mem_of_allDigits _ _ (by decide) hh)
    (not_mem_of_allDigits _ _ (by decide) hh) (not_mem_of_allDigits _ _ (by decide) hm)
    (not_mem_of_allDigits _ _ (by decide) hm) h5]
  simp [toNumber, hh, hm]

/-! ## Lemmas on the modelled fragment and on windows without bounds -/

theorem neverNumeric_not_digit (c : Char) (h : neverNumeric c = true) : c.isDigit = false := by
  have hall : ∀ x ∈ "ghjklmpqrsuvwzGHJKLMNPQRSTUVWYZ".toList, x.isDigit = false := by decide
  have hm : c ∈ "ghjklmpqrsuvwzGHJKLMNPQRSTUVWYZ".toList := by
    unfold neverNumeric at h
    simpa using h
  exact hall c hm

theorem toNumber_nan_of_never (f : Str) (h : f.any neverNumeric = true) :
    toNumber f = JSNum.nan := by
  obtain ⟨c, hc, hn⟩ := List.any_eq_true.mp h
  have hd : f.all Char.isDigit = false := by
    cases hall : f.all Char.isDigit with
    | false => rfl
    | true =>
      have := List.all_eq_true.mp hall c hc
      rw [neverNumeric_not_digit c hn] at this
      exact absurd this (by decide)
  simp [toNumber, hd]

theorem parseTime_eq_clockValue (t : Str) :
    parseTime t = clockValue ((jsSplit [' '] t).get? 1)
      (((timeFields t).map toNumber).headD JSNum.nan)
      ((((timeFields t).map toNumber).get? 1).getD JSNum.nan) := rfl

theorem certainNaN_parse (t : Str) (h : certainNaN t = true) : parseTime t = JSNum.nan := by
  rw [parseTime_eq_clockValue]
  apply clockValue_nan
  unfold certainNaN at h
  cases hf : timeFields t with
  | nil => right; rfl
  | cons f0 rest =>
    cases rest with
    | nil => right; rfl
    | cons f1 tl =>
      rw [hf] at h
      simp only [List.length_cons, List.take_succ_cons, List.take_zero, List.any_cons,
        List.any_nil, Bool.or_false, Bool.or_eq_true, decide_eq_true_eq] at h
      rcases h with h | h | h
      · omega
      · left
        simp [toNumber_nan_of_never f0 h]
      · right
        simp [toNumber_nan_of_never f1 h]

theorem parseTime_no_meridiem (hs ms : Str)
    (h1 : ' ' ∉ hs) (h2 : ':' ∉ hs) (h3 : ' ' ∉ ms) (h4 : ':' ∉ ms) :
    parseTime (hs ++ ':' :: ms) = clockValue none (toNumber hs) (toNumber ms) := by
  have hsp : ' ' ∉ hs ++ ':' :: ms := by
    simp only [List.mem_append, List.mem_cons, not_or]
    exact ⟨h1, by decide, h3⟩
  have e1 : jsSplit [' '] (hs ++ ':' :: ms) = [hs ++ ':' :: ms] :=
    jsSplit_single_noSep ' ' _ hsp
  have e2 : jsSplit [':'] (hs ++ ':' :: ms) = [hs, ms] := by
    rw [jsSplit_single_sep ':' hs ms h2, jsSplit_single_noSep ':' ms h4]
  simp only [parseTime, clockValue, e1, e2, List.headD_cons, List.map_cons, List.map_nil]
  rfl

theorem parseTime_extra_part (hs ms md rest : Str)
    (h1 : ' ' ∉ hs) (h2 : ':' ∉ hs) (h3 : ' ' ∉ ms) (h4 : ':' ∉ ms) (h5 : ' ' ∉ md) :
    parseTime (hs ++ ':' :: ms ++ ' ' :: md ++ ' ' :: rest) =
      clockValue (some md) (toNumber hs) (toNumber ms) := by
  have hsp : ' ' ∉ hs ++ ':' :: ms := by
    simp only [List.mem_append, List.mem_cons, not_or]
    exact ⟨h1, by decide, h3⟩
  have e0 : hs ++ ':' :: ms ++ ' ' :: md ++ ' ' :: rest =
      (hs ++ ':' :: ms) ++ ' ' :: (md ++ ' ' :: rest) := by simp
  have e1 : jsSplit [' '] (hs ++ ':' :: ms ++ ' ' :: md ++ ' ' :: rest) =
      (hs ++ ':' :: ms) :: md :: jsSplit [' '] rest := by
    rw [e0, jsSplit_single_sep ' ' (hs ++ ':' :: ms) _ hsp, jsSplit_single_sep ' ' md rest h5]
  have e2 : jsSplit [':'] (hs ++ ':' :: ms) = [hs, ms] := by
    rw [jsSplit_single_sep ':' hs ms h2, jsSplit_single_noSep ':' ms h4]
  simp only [parseTime, clockValue, e1, e2, List.headD_cons, List.map_cons, List.map_nil]
  rfl

theorem clockValue_none (h m : Nat) :
    clockValue none (JSNum.fin h) (JSNum.fin m) = JSNum.fin (h * 60 + m) := by
  simp [clockValue, JSNum.mul, JSNum.add]

theorem isTimeValid_false_of_nan (ws : List Str) (t : Str) (hn : parseTime t = JSNum.nan) :
    isTimeValid ws t = false := by
  cases hv : isTimeValid ws t with
  | false => rfl
  | true =>
    obtain ⟨r, hp, _⟩ := (isTimeValid_iff_aux ws t).mp hv
    rw [hn] at hp
    simp at hp

theorem autoAssign_append (taken ws1 ws2 : List Str) :
    autoAssign taken (ws1 ++ ws2) =
      match autoAssign taken ws1 with
      | AutoResult.found t => AutoResult.found t
      | AutoResult.exhausted => autoAssign taken ws2
      | AutoResult.threw => AutoResult.threw := by
  induction ws1 with
  | nil => simp [autoAssign]
  | cons slot rest ih =>
    simp only [List.cons_append, autoAssign]
    split
    · split
      · rfl
      · exact ih
    · rfl

theorem autoAssign_bad (taken : List Str) (bad : Str) (ws2 : List Str) (hb : ¬ HasBounds bad) :
    autoAssign taken (bad :: ws2) = AutoResult.threw := by
  unfold autoAssign
  split
  · rename_i a b tl hsp
    exact absurd (by unfold HasBounds; rw [hsp]; simp) hb
  · rfl

theorem autoAssign_reaches_bad (taken ws1 : List Str) (bad : Str) (ws2 : List Str)
    (h1 : ∀ w ∈ ws1, HasBounds w) (hb : ¬ HasBounds bad) :
    autoAssign taken (ws1 ++ bad :: ws2) =
      match specAutoAssign taken ws1 with
      | AutoResult.found t => AutoResult.found t
      | AutoResult.exhausted => AutoResult.threw
      | AutoResult.threw => AutoResult.threw := by
  rw [autoAssign_append, autoAssign_eq_spec taken ws1 h1, autoAssign_bad taken bad ws2 hb]

theorem autoAssign_exhausted_hasBounds (taken ws : List Str)
    (h : autoAssign taken ws = AutoResult.exhausted) : ∀ w ∈ ws, HasBounds w := by
  induction ws with
  | nil => intro w hw; simp at hw
  | cons slot rest ih =>
    unfold autoAssign at h
    split at h
    · rename_i a b tl hsp
      split at h
      · simp at h
      · intro w hw
        rcases List.mem_cons.mp hw with hw | hw
        · subst hw
          unfold HasBounds; rw [hsp]; simp
        · exact ih h w hw
    · simp at h

/-! ## Properties of the slot allocation -/

/-- C1. No double-booking: a successful `bookAppointment` persists exactly one
new appointment, for the doctor and date of the request, whose time string
differs from the time of every existing appointment of that doctor and date;
pairwise distinct times stay pairwise distinct. -/
theorem bookAppointment_no_double_booking (env : Env) (st : Store) (req : BookRequest)
    (st2 : Store) (a : Appointment) (dn : Str)
    (h : bookAppointment env st req = (st2, Response.created a dn))
    (hd : (takenTimes st a.doctorId a.date).Nodup) :
    (truthy req.doctorId).bind env.objectId = some a.doctorId ∧
    truthy req.date = some a.date ∧
    a.time ∉ takenTimes st a.doctorId a.date ∧
    st2.appointments = st.appointments ++ [a] ∧
    takenTimes st2 a.doctorId a.date = takenTimes st a.doctorId a.date ++ [a.time] ∧
    (takenTimes st2 a.doctorId a.date).Nodup := by
  obtain ⟨st1, doctorId, date, patient, doctor, t, hr, hc, hcr⟩ := reaches_of_created h
  obtain ⟨e1, e2, e3, e4, _, _⟩ := createAppointment_eq hcr
  obtain ⟨r1, _, r3⟩ := takenTimes_reaches hr
  have hfree : a.time ∉ takenTimes st a.doctorId a.date := by
    rw [e1, e2, e3, ← r3]
    exact chooseTime_ok_not_taken _ _ _ _ hc
  have happ : st2.appointments = st.appointments ++ [a] := by rw [e4, r1]
  have htt := takenTimes_append st st2 a happ
  refine ⟨by rw [e1]; exact hr.1, by rw [e2]; exact hr.2.1, hfree, happ, htt, ?_⟩
  rw [htt, List.nodup_append]
  refine ⟨hd, List.nodup_singleton _, ?_⟩
  intro x hx hx2
  simp only [List.mem_singleton] at hx2
  subst hx2
  exact hfree hx

theorem bookAppointment_no_double_booking_witness :
    (takenTimes (sampleStore ["09:00 AM - 09:30 AM".toList] ["9:00 AM".toList]) 1
      "2030-01-07".toList).Nodup ∧
    (sampleAppointment 11 "9:10 AM".toList).time ∉
      takenTimes (sampleStore ["09:00 AM - 09:30 AM".toList] ["9:00 AM".toList]) 1
        "2030-01-07".toList :=
  ⟨by decide,
    (bookAppointment_no_double_booking sampleEnv
      (sampleStore ["09:00 AM - 09:30 AM".toList] ["9:00 AM".toList]) (sampleRequest none)
      (bookAppointment sampleEnv (sampleStore ["09:00 AM - 09:30 AM".toList] ["9:00 AM".toList])
        (sampleRequest none)).1
      (sampleAppointment 11 "9:10 AM".toList) "Dr Rao".toList (by decide) (by decide)).2.2.1⟩

/-- C2, as amended. Auto-assignment returns the first free candidate. For
windows inside the modelled fragment, when no time is requested and the request
reaches the allocation: the time of a created appointment is the formatted
first candidate, in the enumeration of the windows in declared order, that is
not booked; when every window has its two bounds and such a candidate exists,
the appointment is created with it; when the windows before the first one
without its two bounds have such a candidate it is assigned, and when they have
none the request fails with the server error; the first free candidate is
unique, so the slot depends on the windows and the booked times only; and
windows are tried in declared order, not sorted by time. -/
theorem autoAssign_returns_first_free (env : Env) (st : Store) (req : BookRequest) (st1 : Store)
    (doctorId : Nat) (date : Str) (patient : Nat × Str) (doctor : Doctor)
    (hr : ReachesAllocation env st req st1 doctorId date patient doctor)
    (ht : truthy req.time = none)
    (_hf : ∀ w ∈ doctor.availableTime, faithfulWindow w = true) :
    (∀ st2 a dn, bookAppointment env st req = (st2, Response.created a dn) →
      FirstFree doctor.availableTime (takenTimes st doctorId date) a.time) ∧
    ((∀ w ∈ doctor.availableTime, HasBounds w) → ∀ t,
      FirstFree doctor.availableTime (takenTimes st doctorId date) t →
      bookAppointment env st req = createAppointment st1 patient doctorId date t doctor) ∧
    (∀ ws1 bad ws2, doctor.availableTime = ws1 ++ bad :: ws2 →
      (∀ w ∈ ws1, HasBounds w) → ¬ HasBounds bad →
      (∀ t, FirstFree ws1 (takenTimes st doctorId date) t →
        bookAppointment env st req = createAppointment st1 patient doctorId date t doctor) ∧
      ((∀ c ∈ specCandidates ws1, formatTime (JSNum.fin c) ∈ takenTimes st doctorId date) →
        bookAppointment env st req = (st1, Response.serverError))) ∧
    (∀ t u, FirstFree doctor.availableTime (takenTimes st doctorId date) t →
      FirstFree doctor.availableTime (takenTimes st doctorId date) u → t = u) ∧
    autoAssign [] ["02:00 PM - 03:00 PM".toList, "09:00 AM - 10:00 AM".toList] =
      AutoResult.found "2:00 PM".toList := by
  obtain ⟨_, _, r3⟩ := takenTimes_reaches hr
  have hb := bookAppointment_of_reaches hr
  rw [chooseTime_auto _ _ _ ht, r3] at hb
  refine ⟨?_, ?_, ?_, ?_, by decide⟩
  · intro st2 a dn h
    rw [hb] at h
    cases hauto : autoAssign (takenTimes st doctorId date) doctor.availableTime with
    | found t =>
      rw [hauto] at h
      obtain ⟨_, _, e3, _⟩ := createAppointment_eq h
      rw [e3]
      exact autoAssign_found_firstFree _ _ _ hauto
    | exhausted => rw [hauto] at h; simp at h
    | threw => rw [hauto] at h; simp at h
  · intro hsep t hff
    have hauto : autoAssign (takenTimes st doctorId date) doctor.availableTime =
        AutoResult.found t := by
      rw [autoAssign_eq_spec _ _ hsep]
      exact (specAutoAssign_found_iff _ _ _).mpr hff
    rw [hb, hauto]
  · intro ws1 bad ws2 hws h1 hbad
    have hauto := autoAssign_reaches_bad (takenTimes st doctorId date) ws1 bad ws2 h1 hbad
    rw [← hws] at hauto
    constructor
    · intro t hff
      rw [(specAutoAssign_found_iff _ _ _).mpr hff] at hauto
      rw [hb, hauto]
    · intro hall
      rw [(specAutoAssign_exhausted_iff _ _).mpr hall] at hauto
      rw [hb, hauto]
  · intro t u h1 h2
    have e1 := (specAutoAssign_found_iff _ _ _).mpr h1
    have e2 := (specAutoAssign_found_iff _ _ _).mpr h2
    rw [e1] at e2
    simpa using e2

theorem autoAssign_returns_first_free_witness :
    ReachesAllocation sampleEnv
      (sampleStore ["09:00 AM - 09:30 AM".toList] ["9:00 AM".toList, "9:10 AM".toList])
      (sampleRequest none)
      (sampleStore ["09:00 AM - 09:30 AM".toList] ["9:00 AM".toList, "9:10 AM".toList])
      1 "2030-01-07".toList (2, "Asha".toList) (sampleDoctor ["09:00 AM - 09:30 AM".toList]) ∧
    (∀ w ∈ (sampleDoctor ["09:00 AM - 09:30 AM".toList]).availableTime, faithfulWindow w = true) ∧
    FirstFree ["09:00 AM - 09:30 AM".toList]
      (takenTimes (sampleStore ["09:00 AM - 09:30 AM".toList] ["9:00 AM".toList, "9:10 AM".toList])
        1 "2030-01-07".toList)
      (sampleAppointment 12 "9:20 AM".toList).time :=
  ⟨by decide, by decide,
    (autoAssign_returns_first_free sampleEnv
      (sampleStore ["09:00 AM - 09:30 AM".toList] ["9:00 AM".toList, "9:10 AM".toList])
      (sampleRequest none)
      (sampleStore ["09:00 AM - 09:30 AM".toList] ["9:00 AM".toList, "9:10 AM".toList])
      1 "2030-01-07".toList (2, "Asha".toList)
      (sampleDoctor ["09:00 AM - 09:30 AM".toList]) (by decide) rfl (by decide)).1
      (bookAppointment sampleEnv
        (sampleStore ["09:00 AM - 09:30 AM".toList] ["9:00 AM".toList, "9:10 AM".toList])
        (sampleRequest none)).1
      (sampleAppointment 12 "9:20 AM".toList) "Dr Rao".toList (by decide)⟩

/-- C2, counterexample. With the windows `bad` and 09:00 AM - 09:30 AM and no
booking, 9:00 AM is the first free candidate of the enumeration, yet no time is
allocated: the window without the separator makes the request fail with the
server error. -/
theorem autoAssign_first_window_without_bounds :
    FirstFree ["bad".toList, "09:00 AM - 09:30 AM".toList] [] "9:00 AM".toList ∧
    bookAppointment sampleEnv (sampleStore ["bad".toList, "09:00 AM - 09:30 AM".toList] [])
        (sampleRequest none) =
      (sampleStore ["bad".toList, "09:00 AM - 09:30 AM".toList] [], Response.serverError) :=
  ⟨⟨[], 540, [550, 560], by decide, by simp, by decide, by decide⟩, by decide⟩

/-- C3, as amended. For windows inside the modelled fragment auto-assignment
fails with the slots-exhausted error exactly when every window string has its
two bounds and every candidate of every window is booked, and then no
appointment is created; when every candidate is booked and some window lacks
its bounds, the request fails with the server error instead. -/
theorem autoAssign_exhausted_iff_all_booked (env : Env) (st : Store) (req : BookRequest)
    (st1 : Store) (doctorId : Nat) (date : Str) (patient : Nat × Str) (doctor : Doctor)
    (hr : ReachesAllocation env st req st1 doctorId date patient doctor)
    (ht : truthy req.time = none)
    (_hf : ∀ w ∈ doctor.availableTime, faithfulWindow w = true) :
    ((bookAppointment env st req).2 =
        Response.badRequest "All slots are full for selected date".toList ↔
      (∀ w ∈ doctor.availableTime, HasBounds w) ∧
      (∀ c ∈ specCandidates doctor.availableTime,
        formatTime (JSNum.fin c) ∈ takenTimes st doctorId date)) ∧
    ((bookAppointment env st req).2 =
        Response.badRequest "All slots are full for selected date".toList →
      bookAppointment env st req =
        (st1, Response.badRequest "All slots are full for selected date".toList) ∧
      st1.appointments = st.appointments) ∧
    (¬ (∀ w ∈ doctor.availableTime, HasBounds w) →
      (∀ c ∈ specCandidates doctor.availableTime,
        formatTime (JSNum.fin c) ∈ takenTimes st doctorId date) →
      bookAppointment env st req = (st1, Response.serverError)) := by
  obtain ⟨r1, _, r3⟩ := takenTimes_reaches hr
  have hb := bookAppointment_of_reaches hr
  rw [chooseTime_auto _ _ _ ht, r3] at hb
  have hfull : (bookAppointment env st req).2 =
        Response.badRequest "All slots are full for selected date".toList →
      autoAssign (takenTimes st doctorId date) doctor.availableTime = AutoResult.exhausted := by
    intro h
    rw [hb] at h
    cases h3 : autoAssign (takenTimes st doctorId date) doctor.availableTime with
    | found t => rw [h3] at h; simp [createAppointment] at h
    | threw => rw [h3] at h; simp at h
    | exhausted => rfl
  refine ⟨⟨?_, ?_⟩, ?_, ?_⟩
  · intro h
    have hex := hfull h
    have hsep := autoAssign_exhausted_hasBounds _ _ hex
    rw [autoAssign_eq_spec _ _ hsep] at hex
    exact ⟨hsep, (specAutoAssign_exhausted_iff _ _).mp hex⟩
  · rintro ⟨hsep, hall⟩
    have hauto : autoAssign (takenTimes st doctorId date) doctor.availableTime =
        AutoResult.exhausted := by
      rw [autoAssign_eq_spec _ _ hsep]
      exact (specAutoAssign_exhausted_iff _ _).mpr hall
    rw [hb, hauto]
  · intro h
    rw [hb, hfull h]
    exact ⟨rfl, r1⟩
  · intro hnot hall
    rcases autoAssign_threw_or (takenTimes st doctorId date) doctor.availableTime with h2 | h2
    · rw [hb, h2]
    · rw [(specAutoAssign_exhausted_iff _ _).mpr hall] at h2
      exact absurd (autoAssign_exhausted_hasBounds _ _ h2) hnot

theorem autoAssign_exhausted_iff_all_booked_witness :
    (∀ w ∈ (sampleDoctor ["09:00 AM - 09:30 AM".toList]).availableTime,
      faithfulWindow w = true ∧ HasBounds w) ∧
    (∀ c ∈ specCandidates (sampleDoctor ["09:00 AM - 09:30 AM".toList]).availableTime,
      formatTime (JSNum.fin c) ∈
        takenTimes (sampleStore ["09:00 AM - 09:30 AM".toList]
          ["9:00 AM".toList, "9:10 AM".toList, "9:20 AM".toList]) 1 "2030-01-07".toList) ∧
    (bookAppointment sampleEnv
      (sampleStore ["09:00 AM - 09:30 AM".toList]
        ["9:00 AM".toList, "9:10 AM".toList, "9:20 AM".toList])
      (sampleRequest none)).2 =
      Response.badRequest "All slots are full for selected date".toList :=
  ⟨by decide, by decide,
    (autoAssign_exhausted_iff_all_booked sampleEnv
      (sampleStore ["09:00 AM - 09:30 AM".toList]
        ["9:00 AM".toList, "9:10 AM".toList, "9:20 AM".toList])
      (sampleRequest none)
      (sampleStore ["09:00 AM - 09:30 AM".toList]
        ["9:00 AM".toList, "9:10 AM".toList, "9:20 AM".toList])
      1 "2030-01-07".toList (2, "Asha".toList)
      (sampleDoctor ["09:00 AM - 09:30 AM".toList]) (by decide) rfl (by decide)).1.mpr
      ⟨by decide, by decide⟩⟩

/-- C3, counterexample. With the single window `bad` every candidate of every
window is booked (there is none), yet the request does not fail with the
slots-exhausted error: the loop throws and the response is the server error. -/
theorem exhausted_window_without_bounds :
    (∀ c ∈ specCandidates ["bad".toList], formatTime (JSNum.fin c) ∈ ([] : List Str)) ∧
    bookAppointment sampleEnv (sampleStore ["bad".toList] []) (sampleRequest none) =
      (sampleStore ["bad".toList] [], Response.serverError) ∧
    (bookAppointment sampleEnv (sampleStore ["bad".toList] []) (sampleRequest none)).2 ≠
      Response.badRequest "All slots are full for selected date".toList := by
  decide

/-- C4. For a requested time and windows inside the modelled fragment, the
window check `isTimeValid` holds exactly when the minute of day `r` of the time
satisfies `start <= r` and `r + 10 <= end` for the parsed bounds of some
window; for the single window 09:00 AM - 01:00 PM it holds for every time of
minute `r` from 540 (9:00) to 770 (12:50) and fails for 775 (12:55) and 780
(13:00). -/
theorem isTimeValid_iff_within_window :
    (∀ ws t, faithfulTime t = true → (∀ w ∈ ws, faithfulWindow w = true) →
      (isTimeValid ws t = true ↔ ∃ r, parseTime t = JSNum.fin r ∧ ∃ w ∈ ws, ∃ s e,
        windowBounds w = (JSNum.fin s, JSNum.fin e) ∧ s ≤ r ∧ r + 10 ≤ e)) ∧
    (∀ r, 540 ≤ r → r ≤ 770 →
      isTimeValid ["09:00 AM - 01:00 PM".toList] (formatTime (JSNum.fin r)) = true ∧
      ∀ t, parseTime t = JSNum.fin r → isTimeValid ["09:00 AM - 01:00 PM".toList] t = true) ∧
    isTimeValid ["09:00 AM - 01:00 PM".toList] "12:55 PM".toList = false ∧
    isTimeValid ["09:00 AM - 01:00 PM".toList] "1:00 PM".toList = false ∧
    (∀ t, parseTime t = JSNum.fin 775 ∨ parseTime t = JSNum.fin 780 →
      isTimeValid ["09:00 AM - 01:00 PM".toList] t = false) := by
  have hb : windowBounds "09:00 AM - 01:00 PM".toList = (JSNum.fin 540, JSNum.fin 780) := by
    decide
  have hin : ∀ r, 540 ≤ r → r ≤ 770 → ∀ t, parseTime t = JSNum.fin r →
      isTimeValid ["09:00 AM - 01:00 PM".toList] t = true := by
    intro r h1 h2 t ht
    rw [isTimeValid_iff_aux]
    exact ⟨r, ht, _, List.mem_singleton.mpr rfl, 540, 780, hb, h1, by omega⟩
  refine ⟨fun ws t _ _ => isTimeValid_iff_aux ws t, ?_, by decide, by decide, ?_⟩
  · intro r h1 h2
    exact ⟨hin r h1 h2 _ (parse_format_roundtrip r (by omega)), hin r h1 h2⟩
  · intro t ht
    cases hv : isTimeValid ["09:00 AM - 01:00 PM".toList] t with
    | false => rfl
    | true =>
      obtain ⟨r, hp, w, hw, s, e, hbw, h1, h2⟩ := (isTimeValid_iff_aux _ _).mp hv
      rw [List.mem_singleton.mp hw, hb] at hbw
      simp only [Prod.mk.injEq, JSNum.fin.injEq] at hbw
      rcases ht with ht | ht <;> rw [ht] at hp <;> simp only [JSNum.fin.injEq] at hp <;> omega

theorem isTimeValid_iff_within_window_witness :
    (faithfulTime "10:00 AM".toList = true ∧
      ∀ w ∈ ["09:00 AM - 01:00 PM".toList], faithfulWindow w = true) ∧
    (isTimeValid ["09:00 AM - 01:00 PM".toList] "10:00 AM".toList = true ↔
      ∃ r, parseTime "10:00 AM".toList = JSNum.fin r ∧
        ∃ w ∈ ["09:00 AM - 01:00 PM".toList], ∃ s e,
          windowBounds w = (JSNum.fin s, JSNum.fin e) ∧ s ≤ r ∧ r + 10 ≤ e) ∧
    (540 ≤ 600 ∧ 600 ≤ 770) ∧
    isTimeValid ["09:00 AM - 01:00 PM".toList] (formatTime (JSNum.fin 600)) = true :=
  ⟨by decide,
    isTimeValid_iff_within_window.1 ["09:00 AM - 01:00 PM".toList] "10:00 AM".toList
      (by decide) (by decide),
    by decide, (isTimeValid_iff_within_window.2.1 600 (by decide) (by decide)).1⟩

/-- C5. For a requested time and windows inside the modelled fragment, an
explicitly requested time that lies outside all windows is rejected with the
invalid-slot error, whatever the booked times are: the window check comes
before the slot-taken check; no appointment is created. -/
theorem explicit_time_outside_windows (env : Env) (st : Store) (req : BookRequest) (st1 : Store)
    (doctorId : Nat) (date : Str) (patient : Nat × Str) (doctor : Doctor)
    (hr : ReachesAllocation env st req st1 doctorId date patient doctor)
    (t : Str) (ht : truthy req.time = some t)
    (_hft : faithfulTime t = true)
    (_hfw : ∀ w ∈ doctor.availableTime, faithfulWindow w = true)
    (hout : ∀ w ∈ doctor.availableTime, ∀ r s e, parseTime t = JSNum.fin r →
      windowBounds w = (JSNum.fin s, JSNum.fin e) → ¬ (s ≤ r ∧ r + 10 ≤ e)) :
    bookAppointment env st req =
      (st1, Response.badRequest "Time not within doctor's available slots".toList) ∧
    st1.appointments = st.appointments := by
  obtain ⟨r1, _, _⟩ := takenTimes_reaches hr
  have hv : isTimeValid doctor.availableTime t = false := by
    cases hv : isTimeValid doctor.availableTime t with
    | false => rfl
    | true =>
      obtain ⟨r, hp, w, hw, s, e, hbw, h1, h2⟩ := (isTimeValid_iff_aux _ _).mp hv
      exact absurd ⟨h1, h2⟩ (hout w hw r s e hp hbw)
  rw [bookAppointment_of_reaches hr, chooseTime_explicit _ _ _ t ht, hv]
  exact ⟨rfl, r1⟩

theorem explicit_time_outside_windows_witness :
    (faithfulTime "9:25 AM".toList = true ∧
      ∀ w ∈ (sampleDoctor ["09:00 AM - 09:30 AM".toList]).availableTime,
        faithfulWindow w = true) ∧
    "9:25 AM".toList ∈
      takenTimes (sampleStore ["09:00 AM - 09:30 AM".toList] ["9:25 AM".toList]) 1
        "2030-01-07".toList ∧
    bookAppointment sampleEnv (sampleStore ["09:00 AM - 09:30 AM".toList] ["9:25 AM".toList])
        (sampleRequest (some "9:25 AM".toList)) =
      (sampleStore ["09:00 AM - 09:30 AM".toList] ["9:25 AM".toList],
        Response.badRequest "Time not within doctor's available slots".toList) :=
  ⟨by decide, by decide,
    (explicit_time_outside_windows sampleEnv
      (sampleStore ["09:00 AM - 09:30 AM".toList] ["9:25 AM".toList])
      (sampleRequest (some "9:25 AM".toList))
      (sampleStore ["09:00 AM - 09:30 AM".toList] ["9:25 AM".toList])
      1 "2030-01-07".toList (2, "Asha".toList) (sampleDoctor ["09:00 AM - 09:30 AM".toList])
      (by decide) "9:25 AM".toList rfl (by decide) (by decide)
      (by
        intro w hw r s e hp hb
        have hw2 : w = "09:00 AM - 09:30 AM".toList := List.mem_singleton.mp hw
        have hp2 : parseTime "9:25 AM".toList = JSNum.fin 565 := by decide
        have hb2 : windowBounds "09:00 AM - 09:30 AM".toList = (JSNum.fin 540, JSNum.fin 570) := by
          decide
        rw [hp2] at hp
        rw [hw2, hb2] at hb
        simp only [Prod.mk.injEq, JSNum.fin.injEq] at hb hp
        omega)).1⟩

/-- C6. An explicitly requested time that is within some window and not booked
is accepted unchanged: the created appointment carries exactly the requested
string. -/
theorem explicit_time_accepted_unchanged (env : Env) (st : Store) (req : BookRequest)
    (st1 : Store) (doctorId : Nat) (date : Str) (patient : Nat × Str) (doctor : Doctor)
    (hr : ReachesAllocation env st req st1 doctorId date patient doctor)
    (t : Str) (ht : truthy req.time = some t)
    (hv : isTimeValid doctor.availableTime t = true)
    (hfree : t ∉ takenTimes st doctorId date) :
    req.time = some t ∧
    ∃ st2 a, bookAppointment env st req = (st2, Response.created a doctor.name) ∧
      a.time = t ∧ a.doctorId = doctorId ∧ a.date = date ∧
      st2.appointments = st.appointments ++ [a] := by
  obtain ⟨r1, _, r3⟩ := takenTimes_reaches hr
  have hc : (takenTimes st1 doctorId date).contains t = false := by
    rw [r3]; simpa using hfree
  have hb := bookAppointment_of_reaches hr
  rw [chooseTime_explicit _ _ _ t ht, hv, hc] at hb
  refine ⟨(truthy_eq_some ht).1, _, _, hb, rfl, rfl, rfl, ?_⟩
  simp [r1]

theorem explicit_time_accepted_unchanged_witness :
    isTimeValid (sampleDoctor ["09:00 AM - 09:30 AM".toList]).availableTime "9:05 AM".toList = true ∧
    ∃ st2 a, bookAppointment sampleEnv
        (sampleStore ["09:00 AM - 09:30 AM".toList] ["9:00 AM".toList])
        (sampleRequest (some "9:05 AM".toList)) = (st2, Response.created a "Dr Rao".toList) ∧
      a.time = "9:05 AM".toList :=
  ⟨by decide,
    match (explicit_time_accepted_unchanged sampleEnv
      (sampleStore ["09:00 AM - 09:30 AM".toList] ["9:00 AM".toList])
      (sampleRequest (some "9:05 AM".toList))
      (sampleStore ["09:00 AM - 09:30 AM".toList] ["9:00 AM".toList])
      1 "2030-01-07".toList (2, "Asha".toList) (sampleDoctor ["09:00 AM - 09:30 AM".toList])
      (by decide) "9:05 AM".toList rfl (by decide) (by decide)).2 with
    | ⟨st2, a, h1, h2, _⟩ => ⟨st2, a, h1, h2⟩⟩


/-- C7, as amended. Idempotent rejection, for a doctor whose windows are inside
the modelled fragment (hour and minute fields that are plain non-negative
integers, or no number at all): after a booking succeeded with time `t`,
explicitly requested, or auto-assigned when the windows all end by midnight
(1440 minutes), a following booking on the resulting store for the same doctor
and date that explicitly requests `t`, and whose patient resolves, fails with
the slot-taken error and creates no appointment. -/
theorem rebooking_same_time_rejected (env : Env) (st : Store) (req : BookRequest)
    (st2 : Store) (a : Appointment) (dn : Str)
    (h : bookAppointment env st req = (st2, Response.created a dn))
    (_hf : ∀ d ∈ st.doctors, d.id = a.doctorId → ∀ w ∈ d.availableTime, faithfulWindow w = true)
    (hmid : truthy req.time = none →
      ∀ d ∈ st.doctors, d.id = a.doctorId → ∀ w ∈ d.availableTime, EndsByMidnight w)
    (req2 : BookRequest) (hdoc : req2.doctorId = req.doctorId) (hdate : req2.date = req.date)
    (htime : req2.time = some a.time)
    (st3 : Store) (patient2 : Nat × Str)
    (hp : resolvePatient env st2 req2 = (st3, Result.ok patient2)) :
    bookAppointment env st2 req2 =
      (st3, Response.badRequest "Selected time is already booked".toList) ∧
    st3.appointments = st2.appointments := by
  obtain ⟨st1, doctorId, date, patient, doctor, t, hr, hc, hcr⟩ := reaches_of_created h
  obtain ⟨e1, e2, e3, e4, e5, _⟩ := createAppointment_eq hcr
  obtain ⟨_, r2, _⟩ := takenTimes_reaches hr
  obtain ⟨h1, h2, h3, _, h5, h6, h7⟩ := hr
  have hres := resolvePatient_appointments env st2 req2
  rw [hp] at hres
  have hr2 : ReachesAllocation env st2 req2 st3 doctorId date patient2 doctor := by
    refine ⟨by rw [hdoc]; exact h1, by rw [hdate]; exact h2, h3, hp, ?_, h6, h7⟩
    rw [hres.2, e5]; exact h5
  have hmem : doctor ∈ st.doctors := by
    rw [← r2]; exact List.mem_of_find?_eq_some h5
  have hid : doctor.id = a.doctorId := by
    have := List.find?_some h5
    rw [e1]; simpa using this
  obtain ⟨hv, hne⟩ := chooseTime_ok_valid _ _ _ _ hc (fun hn => hmid hn doctor hmem hid)
  have htr : truthy req2.time = some t := by
    rw [htime, e3]; exact truthy_some_of_ne_nil t hne
  have htaken : (takenTimes st3 doctorId date).contains t = true := by
    rw [takenTimes_congr st2 st3 hres.1]
    have := takenTimes_append st1 st2 a e4
    rw [e1, e2, e3] at this
    rw [this]
    simp
  rw [bookAppointment_of_reaches hr2, chooseTime_explicit _ _ _ t htr, hv, htaken]
  exact ⟨rfl, hres.1⟩

theorem rebooking_same_time_rejected_witness :
    bookAppointment sampleEnv
      (bookAppointment sampleEnv (sampleStore ["09:00 AM - 09:30 AM".toList] ["9:00 AM".toList])
        (sampleRequest none)).1
      (sampleRequest (some (sampleAppointment 11 "9:10 AM".toList).time)) =
      ((bookAppointment sampleEnv (sampleStore ["09:00 AM - 09:30 AM".toList] ["9:00 AM".toList])
        (sampleRequest none)).1,
        Response.badRequest "Selected time is already booked".toList) :=
  (rebooking_same_time_rejected sampleEnv
    (sampleStore ["09:00 AM - 09:30 AM".toList] ["9:00 AM".toList]) (sampleRequest none)
    (bookAppointment sampleEnv (sampleStore ["09:00 AM - 09:30 AM".toList] ["9:00 AM".toList])
      (sampleRequest none)).1
    (sampleAppointment 11 "9:10 AM".toList) "Dr Rao".toList (by decide) (by decide) (by decide)
    (sampleRequest (some (sampleAppointment 11 "9:10 AM".toList).time)) rfl rfl rfl
    (bookAppointment sampleEnv (sampleStore ["09:00 AM - 09:30 AM".toList] ["9:00 AM".toList])
      (sampleRequest none)).1
    (2, "Asha".toList) (by decide)).1

/-- C7, counterexample. For a doctor whose window runs past midnight the time
auto-assigned at minute 1440 is the string 12:00 PM; the following explicit
request for that string fails with the invalid-slot error, not with the
slot-taken error. -/
theorem rebooking_past_midnight_not_slot_taken :
    (bookAppointment sampleEnv (sampleStore ["11:50 PM - 24:30 AM".toList] ["11:50 PM".toList])
      (sampleRequest none)).2 =
      Response.created (sampleAppointment 11 "12:00 PM".toList) "Dr Rao".toList ∧
    (bookAppointment sampleEnv
      (bookAppointment sampleEnv (sampleStore ["11:50 PM - 24:30 AM".toList] ["11:50 PM".toList])
        (sampleRequest none)).1
      (sampleRequest (some "12:00 PM".toList))).2 =
      Response.badRequest "Time not within doctor's available slots".toList ∧
    (bookAppointment sampleEnv
      (bookAppointment sampleEnv (sampleStore ["11:50 PM - 24:30 AM".toList] ["11:50 PM".toList])
        (sampleRequest none)).1
      (sampleRequest (some "12:00 PM".toList))).2 ≠
      Response.badRequest "Selected time is already booked".toList := by
  decide

/-- C8. Round trip: parsing the formatted string of a minute count `m` with
`0 <= m <= 1439` gives `m` back. -/
theorem parseTime_formatTime (m : Nat) (hm : m ≤ 1439) :
    parseTime (formatTime (JSNum.fin m)) = JSNum.fin m :=
  parse_format_roundtrip m hm

theorem parseTime_formatTime_witness :
    (725 : Nat) ≤ 1439 ∧ parseTime (formatTime (JSNum.fin 725)) = JSNum.fin 725 :=
  ⟨by decide, parseTime_formatTime 725 (by decide)⟩

/-- C9. On a well-formed clock string with hour `H` in 1..12 (written plainly
or zero-padded to two digits) and minutes `MM` in 00..59, `parseTime` returns
`(H mod 12) * 60 + MM` for AM and `(H mod 12 + 12) * 60 + MM` for PM. -/
theorem parseTime_clock_string (H MM : Nat) (hH : 1 ≤ H ∧ H ≤ 12) (hM : MM ≤ 59) :
    parseTime (natToStr H ++ ':' :: padStart 2 '0' (natToStr MM) ++ " AM".toList) =
      JSNum.fin (H % 12 * 60 + MM) ∧
    parseTime (natToStr H ++ ':' :: padStart 2 '0' (natToStr MM) ++ " PM".toList) =
      JSNum.fin ((H % 12 + 12) * 60 + MM) ∧
    parseTime (padStart 2 '0' (natToStr H) ++ ':' :: padStart 2 '0' (natToStr MM) ++ " AM".toList) =
      JSNum.fin (H % 12 * 60 + MM) ∧
    parseTime (padStart 2 '0' (natToStr H) ++ ':' :: padStart 2 '0' (natToStr MM) ++ " PM".toList) =
      JSNum.fin ((H % 12 + 12) * 60 + MM) := by
  obtain ⟨a1, a2, a3, a4⟩ := natToStr_small H (by omega)
  obtain ⟨_, _, b3, b4⟩ := natToStr_small MM (by omega)
  have d1 : digitsVal (natToStr H) = H := by
    simpa [toNumber, a1] using a2
  have d2 : digitsVal (padStart 2 '0' (natToStr H)) = H := by
    simpa [toNumber, a3] using a4
  have d3 : digitsVal (padStart 2 '0' (natToStr MM)) = MM := by
    simpa [toNumber, b3] using b4
  have eA : " AM".toList = ' ' :: "AM".toList := rfl
  have eP : " PM".toList = ' ' :: "PM".toList := rfl
  have hAM : (if H = 12 then 0 else H) = H % 12 := by split <;> omega
  have hPM : (if H < 12 then H + 12 else H) = H % 12 + 12 := by split <;> omega
  refine ⟨?_, ?_, ?_, ?_⟩
  · rw [eA, parseTime_digits _ _ _ a1 b3 (by decide), d1, d3, clockValue_AM, hAM]
  · rw [eP, parseTime_digits _ _ _ a1 b3 (by decide), d1, d3, clockValue_PM, hPM]
  · rw [eA, parseTime_digits _ _ _ a3 b3 (by decide), d2, d3, clockValue_AM, hAM]
  · rw [eP, parseTime_digits _ _ _ a3 b3 (by decide), d2, d3, clockValue_PM, hPM]

theorem parseTime_clock_string_witness :
    ((1 ≤ 12 ∧ 12 ≤ 12) ∧ 30 ≤ 59) ∧
    parseTime (natToStr 12 ++ ':' :: padStart 2 '0' (natToStr 30) ++ " AM".toList) =
      JSNum.fin (12 % 12 * 60 + 30) :=
  ⟨by decide, (parseTime_clock_string 12 30 (by decide) (by decide)).1⟩

/-- C10, as amended. `parseTime` does not fail on a string, it returns a number
or `NaN`. A string without a meridiem part is read from its time part alone,
and parts after the meridiem are ignored. It returns `NaN` when the time part
has no colon, so that the minute piece is missing, and when the hour or the
minute piece holds a letter that occurs in no numeric literal; an explicitly
requested time of this kind is never booked, the request fails with the
invalid-slot error. -/
theorem parseTime_nan_never_booked :
    (∀ hs ms : Str, exactField hs = true → exactField ms = true →
      parseTime (hs ++ ':' :: ms) = JSNum.fin (digitsVal hs * 60 + digitsVal ms)) ∧
    (∀ hs ms md rest : Str, ' ' ∉ hs → ':' ∉ hs → ' ' ∉ ms → ':' ∉ ms → ' ' ∉ md →
      parseTime (hs ++ ':' :: ms ++ ' ' :: md ++ ' ' :: rest) =
        parseTime (hs ++ ':' :: ms ++ ' ' :: md)) ∧
    (∀ t : Str, certainNaN t = true → parseTime t = JSNum.nan) ∧
    (∀ (ws taken : List Str) (t : Str), t ≠ [] → certainNaN t = true →
      chooseTime ws taken (some t) =
        Result.error (Response.badRequest "Time not within doctor's available slots".toList)) ∧
    (∀ (env : Env) (st : Store) (req : BookRequest) (t : Str), truthy req.time = some t →
      certainNaN t = true →
      ∀ st2 a dn, bookAppointment env st req ≠ (st2, Response.created a dn)) := by
  refine ⟨?_, ?_, certainNaN_parse, ?_, ?_⟩
  · intro hs ms h1 h2
    unfold exactField at h1 h2
    simp only [Bool.and_eq_true, decide_eq_true_eq] at h1 h2
    rw [parseTime_no_meridiem hs ms (not_mem_of_allDigits _ _ (by decide) h1.1)
      (not_mem_of_allDigits _ _ (by decide) h1.1) (not_mem_of_allDigits _ _ (by decide) h2.1)
      (not_mem_of_allDigits _ _ (by decide) h2.1)]
    simp only [toNumber, h1.1, h2.1, if_true]
    exact clockValue_none _ _
  · intro hs ms md rest h1 h2 h3 h4 h5
    rw [parseTime_extra_part hs ms md rest h1 h2 h3 h4 h5, parseTime_fields hs ms md h1 h2 h3 h4 h5]
  · intro ws taken t hne hn
    rw [chooseTime_explicit ws taken (some t) t (truthy_some_of_ne_nil t hne),
      isTimeValid_false_of_nan ws t (certainNaN_parse t hn)]
    rfl
  · intro env st req t ht hn st2 a dn h
    obtain ⟨st1, doctorId, date, patient, doctor, u, _, hc, _⟩ := reaches_of_created h
    rw [chooseTime_explicit _ _ _ t ht,
      isTimeValid_false_of_nan _ t (certainNaN_parse t hn)] at hc
    simp at hc

theorem parseTime_nan_never_booked_witness :
    ("9:zz AM".toList ≠ [] ∧ certainNaN "9:zz AM".toList = true ∧
      certainNaN "900 AM".toList = true) ∧
    chooseTime ["09:00 AM - 01:00 PM".toList] [] (some "9:zz AM".toList) =
      Result.error (Response.badRequest "Time not within doctor's available slots".toList) ∧
    parseTime "900 AM".toList = JSNum.nan :=
  ⟨by decide,
    parseTime_nan_never_booked.2.2.2.1 ["09:00 AM - 01:00 PM".toList] [] "9:zz AM".toList
      (by decide) (by decide),
    parseTime_nan_never_booked.2.2.1 "900 AM".toList (by decide)⟩

/-- C10, counterexample. `parseTime` does not reject a string without a
meridiem part or with an extra part: both parse to 540, and the explicit
request for the string 9:00 is booked as it is. -/
theorem parseTime_accepts_malformed :
    parseTime "9:00".toList = JSNum.fin 540 ∧
    parseTime "9:00 AM extra".toList = JSNum.fin 540 ∧
    (bookAppointment sampleEnv (sampleStore ["09:00 AM - 01:00 PM".toList] [])
      (sampleRequest (some "9:00".toList))).2 =
      Response.created (sampleAppointment 10 "9:00".toList) "Dr Rao".toList := by
  decide


/-! ## Properties of the booking orchestration -/

theorem bookAppointment_of_validated {env : Env} {st : Store} {req : BookRequest}
    {doctorId : Nat} {date : Str}
    (h1 : (truthy req.doctorId).bind env.objectId = some doctorId)
    (h2 : truthy req.date = some date) (h3 : isPastDate env date = false) :
    bookAppointment env st req =
      match resolvePatient env st req with
      | (st1, Result.error r) => (st1, r)
      | (st1, Result.ok patient) =>
        match st1.doctors.find? (fun d => d.id == doctorId) with
        | none => (st1, Response.badRequest "Doctor not found".toList)
        | some doctor =>
          if !doctor.availableDays.contains (env.dayName date) then
            (st1, Response.badRequest ("Doctor not available on ".toList ++ env.dayName date ++
              ". Available: ".toList ++ joinWith ", ".toList doctor.availableDays))
          else if doctor.availableTime.isEmpty then
            (st1, Response.badRequest "Doctor's available time is not set".toList)
          else
            match chooseTime doctor.availableTime (takenTimes st1 doctorId date) req.time with
            | Result.error r => (st1, r)
            | Result.ok finalTime => createAppointment st1 patient doctorId date finalTime doctor := by
  simp only [bookAppointment, h1, h2, h3]
  simp

/-- C11. When the weekday of the date is not among the doctor's available days,
the booking fails with the doctor-unavailable message, which names the weekday
and lists the configured days, whatever the windows, the requested time and the
booked times are; no appointment is created. -/
theorem unavailable_weekday_rejected (env : Env) (st : Store) (req : BookRequest)
    (doctorId : Nat) (date : Str) (st1 : Store) (patient : Nat × Str) (doctor : Doctor)
    (h1 : (truthy req.doctorId).bind env.objectId = some doctorId)
    (h2 : truthy req.date = some date) (h3 : isPastDate env date = false)
    (h4 : resolvePatient env st req = (st1, Result.ok patient))
    (h5 : st1.doctors.find? (fun d => d.id == doctorId) = some doctor)
    (h6 : env.dayName date ∉ doctor.availableDays) :
    bookAppointment env st req =
      (st1, Response.badRequest ("Doctor not available on ".toList ++ env.dayName date ++
        ". Available: ".toList ++ joinWith ", ".toList doctor.availableDays)) ∧
    st1.appointments = st.appointments := by
  have hc : doctor.availableDays.contains (env.dayName date) = false := by simpa using h6
  have hres := resolvePatient_appointments env st req
  rw [h4] at hres
  rw [bookAppointment_of_validated h1 h2 h3, h4]
  simp only [h5, hc]
  exact ⟨rfl, hres.1⟩

theorem unavailable_weekday_rejected_witness :
    getDayName "2030-01-08".toList = "Tuesday".toList ∧
    bookAppointment (clockEnv utcNoon) (sampleStore [] ["9:00 AM".toList])
        { sampleRequest (some "9:00 AM".toList) with date := some "2030-01-08".toList } =
      (sampleStore [] ["9:00 AM".toList],
        Response.badRequest "Doctor not available on Tuesday. Available: Monday".toList) :=
  ⟨by decide,
    (unavailable_weekday_rejected (clockEnv utcNoon) (sampleStore [] ["9:00 AM".toList])
      { sampleRequest (some "9:00 AM".toList) with date := some "2030-01-08".toList }
      1 "2030-01-08".toList (sampleStore [] ["9:00 AM".toList]) (2, "Asha".toList)
      (sampleDoctor []) (by decide) (by decide) (by decide) (by decide) (by decide)
      (by decide)).1⟩

/-- C12, as amended. A request with a well-formed doctor identifier whose date
is earlier than today fails with the past-date error, whatever the requested
time and the patient fields are and whether or not the doctor exists; the store
is unchanged. -/
theorem past_date_rejected (env : Env) (st : Store) (req : BookRequest) (doctorId : Nat)
    (date : Str) (h1 : (truthy req.doctorId).bind env.objectId = some doctorId)
    (h2 : truthy req.date = some date) (h3 : isPastDate env date = true) :
    bookAppointment env st req =
      (st, Response.badRequest "Cannot book an appointment for a past date".toList) := by
  simp only [bookAppointment, h1, h2, h3]
  simp

theorem past_date_rejected_witness :
    isPastDate (clockEnv utcNoon) "2030-01-06".toList = true ∧
    bookAppointment (clockEnv utcNoon)
        { sampleStore ["09:00 AM - 09:30 AM".toList] [] with doctors := [] }
        { sampleRequest (some "nonsense".toList) with date := some "2030-01-06".toList } =
      ({ sampleStore ["09:00 AM - 09:30 AM".toList] [] with doctors := [] },
        Response.badRequest "Cannot book an appointment for a past date".toList) :=
  ⟨by decide,
    past_date_rejected (clockEnv utcNoon)
      { sampleStore ["09:00 AM - 09:30 AM".toList] [] with doctors := [] }
      { sampleRequest (some "nonsense".toList) with date := some "2030-01-06".toList }
      1 "2030-01-06".toList (by decide) (by decide) (by decide)⟩

/-- C12, counterexample. With a past date and a missing or a malformed doctor
identifier the request fails with the invalid-doctor-identifier error, not with
the past-date error: the identifier is checked first (line 36). -/
theorem past_date_invalid_doctor_first :
    isPastDate (clockEnv utcNoon) "2030-01-06".toList = true ∧
    (bookAppointment (clockEnv utcNoon) (sampleStore ["09:00 AM - 09:30 AM".toList] [])
      { sampleRequest none with doctorId := none, date := some "2030-01-06".toList }).2 =
      Response.badRequest "Invalid doctor ID".toList ∧
    (bookAppointment (clockEnv utcNoon) (sampleStore ["09:00 AM - 09:30 AM".toList] [])
      { sampleRequest none with doctorId := some "not-an-id".toList,
                                date := some "2030-01-06".toList }).2 =
      Response.badRequest "Invalid doctor ID".toList := by
  decide

theorem resolvePatient_ignores_details (env : Env) (st : Store) (req : BookRequest)
    (h : truthy req.patientId ≠ none) (details : Option PatientInput) :
    resolvePatient env st { req with patient := details } = resolvePatient env st req := by
  cases hp : truthy req.patientId with
  | none => exact absurd hp h
  | some pid => simp only [resolvePatient, hp]

/-- C13, as amended. A request with neither a patient identifier nor inline
details fails with the missing-patient error; in a request with both the
identifier takes precedence and the inline details are ignored: the request is
processed exactly like the one without them. -/
theorem patient_input_modes (env : Env) (st : Store) (req : BookRequest) :
    (∀ doctorId date, (truthy req.doctorId).bind env.objectId = some doctorId →
      truthy req.date = some date → isPastDate env date = false →
      truthy req.patientId = none → req.patient = none →
      bookAppointment env st req =
        (st, Response.badRequest "Patient details are required".toList)) ∧
    (truthy req.patientId ≠ none → ∀ details,
      bookAppointment env st { req with patient := details } = bookAppointment env st req) := by
  constructor
  · intro doctorId date h1 h2 h3 h4 h5
    have hr : resolvePatient env st req =
        (st, Result.error (Response.badRequest "Patient details are required".toList)) := by
      simp only [resolvePatient, h4, h5]
    rw [bookAppointment_of_validated h1 h2 h3, hr]
  · intro h details
    have hr := resolvePatient_ignores_details env st req h details
    unfold bookAppointment
    rw [hr]

theorem patient_input_modes_witness :
    truthy (sampleRequest none).patientId ≠ none ∧
    bookAppointment sampleEnv (sampleStore ["09:00 AM - 09:30 AM".toList] [])
        { sampleRequest none with patient := some sampleDetails } =
      bookAppointment sampleEnv (sampleStore ["09:00 AM - 09:30 AM".toList] [])
        (sampleRequest none) :=
  ⟨by decide,
    (patient_input_modes sampleEnv (sampleStore ["09:00 AM - 09:30 AM".toList] [])
      (sampleRequest none)).2 (by decide) (some sampleDetails)⟩

/-- C13, counterexample. A request that supplies both a patient identifier and
inline patient details is not rejected: it is processed with the stored patient
and the appointment is created. -/
theorem both_patient_modes_processed :
    (bookAppointment sampleEnv (sampleStore ["09:00 AM - 09:30 AM".toList] [])
      { sampleRequest none with patient := some sampleDetails }).2 =
      Response.created (sampleAppointment 10 "9:00 AM".toList) "Dr Rao".toList := by
  decide

/-! ## Lemmas on the status update -/

theorem setStatus_of_find (id : Nat) (s : Str) (apps : List Appointment) (a : Appointment)
    (h : apps.find? (fun x => x.id == id) = some a) :
    ∃ apps2, setStatus id s apps = some ({ a with status := s }, apps2) ∧
      apps2.find? (fun x => x.id == id) = some { a with status := s } := by
  induction apps with
  | nil => simp at h
  | cons x rest ih =>
    cases hx : (x.id == id) with
    | true =>
      simp only [List.find?_cons, hx, Option.some.injEq] at h
      subst h
      refine ⟨{ x with status := s } :: rest, by simp [setStatus, hx], ?_⟩
      simp only [List.find?_cons, hx]
    | false =>
      simp only [List.find?_cons, hx] at h
      obtain ⟨apps2, h1, h2⟩ := ih h
      refine ⟨x :: apps2, by simp [setStatus, hx, h1], ?_⟩
      simp only [List.find?_cons, hx]
      exact h2

theorem setStatus_times (id : Nat) (s : Str) (apps : List Appointment) (u : Appointment)
    (apps2 : List Appointment) (h : setStatus id s apps = some (u, apps2))
    (d : Nat) (date : Str) :
    (apps2.filter (fun a => a.doctorId == d && a.date == date)).map (fun a => a.time) =
      (apps.filter (fun a => a.doctorId == d && a.date == date)).map (fun a => a.time) := by
  induction apps generalizing u apps2 with
  | nil => simp [setStatus] at h
  | cons x rest ih =>
    unfold setStatus at h
    split at h
    · simp only [Option.some.injEq, Prod.mk.injEq] at h
      obtain ⟨_, h2⟩ := h
      subst h2
      simp only [List.filter_cons]
      split <;> simp
    · cases hr : setStatus id s rest with
      | none => rw [hr] at h; simp at h
      | some r =>
        rw [hr] at h
        simp only [Option.map_some', Option.some.injEq, Prod.mk.injEq] at h
        obtain ⟨_, h2⟩ := h
        subst h2
        have := ih r.1 r.2 hr
        simp only [List.filter_cons]
        split <;> simp [this]

theorem validStatuses_mem (s : Str) :
    validStatuses.contains s = true ↔
      s ∈ ["Booked".toList, "Scheduled".toList, "Pending".toList, "Completed".toList,
        "Cancelled".toList] := by
  have hm : validStatuses.contains s = true ↔ s ∈ validStatuses := by simp
  rw [hm]
  simp only [validStatuses, List.mem_cons, List.mem_nil_iff, or_false]
  tauto

theorem update_preserves (env : Env) (st : Store) (idStr : Str) (status : Option Str) :
    (updateAppointmentStatus env st idStr status).1.patients = st.patients ∧
    (updateAppointmentStatus env st idStr status).1.doctors = st.doctors ∧
    (updateAppointmentStatus env st idStr status).1.nextId = st.nextId ∧
    ∀ d date, takenTimes (updateAppointmentStatus env st idStr status).1 d date =
      takenTimes st d date := by
  unfold updateAppointmentStatus
  split
  · simp
  · split
    · simp
    · split
      · simp
      · split
        · simp
        · rename_i updated apps2 hs
          refine ⟨rfl, rfl, rfl, ?_⟩
          intro d date
          exact setStatus_times _ _ _ _ _ hs d date

theorem update_of_existing (env : Env) (st : Store) (idStr : Str) (id : Nat) (a : Appointment)
    (hid : env.objectId idStr = some id)
    (hex : st.appointments.find? (fun x => x.id == id) = some a)
    (s : Str) (hs : validStatuses.contains s = true) :
    ∃ st2, updateAppointmentStatus env st idStr (some s) =
        (st2, UpdateResponse.ok { a with status := s }) ∧
      st2.appointments.find? (fun x => x.id == id) = some { a with status := s } := by
  obtain ⟨apps2, h1, h2⟩ := setStatus_of_find id s st.appointments a hex
  refine ⟨{ st with appointments := apps2 }, ?_, h2⟩
  have hs2 : s ∈ validStatuses := by simpa using hs
  simp [updateAppointmentStatus, hs2, hid, h1]

/-! ## Properties of the status update -/

/-- C14. On an existing appointment `updateAppointmentStatus` succeeds exactly
when the requested status is one of Booked, Scheduled, Pending, Completed and
Cancelled, whatever the current status is, and then the stored status is the
requested one; any other value, and an absent one, fails with the
invalid-status error and leaves the store as it is. -/
theorem updateStatus_iff_valid (env : Env) (st : Store) (idStr : Str) (id : Nat)
    (a : Appointment) (hid : env.objectId idStr = some id)
    (hex : st.appointments.find? (fun x => x.id == id) = some a) (s : Str) :
    ((∃ st2 u, updateAppointmentStatus env st idStr (some s) = (st2, UpdateResponse.ok u)) ↔
      s ∈ ["Booked".toList, "Scheduled".toList, "Pending".toList, "Completed".toList,
        "Cancelled".toList]) ∧
    (s ∈ ["Booked".toList, "Scheduled".toList, "Pending".toList, "Completed".toList,
        "Cancelled".toList] →
      ∃ st2, updateAppointmentStatus env st idStr (some s) =
          (st2, UpdateResponse.ok { a with status := s }) ∧
        st2.appointments.find? (fun x => x.id == id) = some { a with status := s }) ∧
    (s ∉ ["Booked".toList, "Scheduled".toList, "Pending".toList, "Completed".toList,
        "Cancelled".toList] →
      updateAppointmentStatus env st idStr (some s) =
        (st, UpdateResponse.badRequest "Invalid status".toList)) ∧
    updateAppointmentStatus env st idStr none =
      (st, UpdateResponse.badRequest "Invalid status".toList) := by
  have hbad : s ∉ ["Booked".toList, "Scheduled".toList, "Pending".toList, "Completed".toList,
        "Cancelled".toList] →
      updateAppointmentStatus env st idStr (some s) =
        (st, UpdateResponse.badRequest "Invalid status".toList) := by
    intro hn
    have hc : validStatuses.contains s = false := by
      cases hv : validStatuses.contains s with
      | false => rfl
      | true => exact absurd ((validStatuses_mem s).mp hv) hn
    simp only [updateAppointmentStatus, hc, Bool.not_false, if_true]
  have hgood := fun hm => update_of_existing env st idStr id a hid hex s ((validStatuses_mem s).mpr hm)
  refine ⟨⟨?_, ?_⟩, hgood, hbad, rfl⟩
  · rintro ⟨st2, u, h⟩
    by_contra hn
    rw [hbad hn] at h
    simp at h
  · intro hm
    obtain ⟨st2, h, _⟩ := hgood hm
    exact ⟨st2, _, h⟩

theorem updateStatus_iff_valid_witness :
    ∃ st2, updateAppointmentStatus (clockEnv utcNoon) completedStore "a10".toList
        (some "Booked".toList) =
        (st2, UpdateResponse.ok { sampleCompleted with status := "Booked".toList }) ∧
      st2.appointments.find? (fun x => x.id == 10) =
        some { sampleCompleted with status := "Booked".toList } :=
  (updateStatus_iff_valid (clockEnv utcNoon) completedStore "a10".toList 10 sampleCompleted
    (by decide) (by decide) "Booked".toList).2.1 (by decide)

/-- C17, the code at the failing input. The controller accepts and stores the
status Pending, which is not a member of the status enumeration of the
Appointment model: the two lists differ. -/
theorem pending_stored_outside_enum :
    (updateAppointmentStatus (clockEnv utcNoon) completedStore "a10".toList
      (some "Pending".toList)).2 =
      UpdateResponse.ok { sampleCompleted with status := "Pending".toList } ∧
    "Pending".toList ∈ validStatuses ∧
    "Pending".toList ∉ statusEnum ∧
    validStatuses = statusEnum ++ ["Pending".toList] := by
  decide

theorem resolvePatient_congr (env : Env) (st st2 : Store) (req : BookRequest)
    (hp : st2.patients = st.patients) (hn : st2.nextId = st.nextId) :
    (resolvePatient env st2 req).2 = (resolvePatient env st req).2 ∧
    (resolvePatient env st2 req).1.nextId = (resolvePatient env st req).1.nextId ∧
    (resolvePatient env st2 req).1.doctors = st2.doctors ∧
    (resolvePatient env st2 req).1.appointments = st2.appointments := by
  unfold resolvePatient
  rw [hp, hn]
  repeat' split
  all_goals simp [hn]

theorem bookAppointment_response_congr (env : Env) (st st2 : Store) (req : BookRequest)
    (hp : st2.patients = st.patients) (hd : st2.doctors = st.doctors)
    (hn : st2.nextId = st.nextId)
    (ht : ∀ d date, takenTimes st2 d date = takenTimes st d date) :
    (bookAppointment env st2 req).2 = (bookAppointment env st req).2 := by
  cases h1 : (truthy req.doctorId).bind env.objectId with
  | none => simp only [bookAppointment, h1]
  | some doctorId =>
    cases h2 : truthy req.date with
    | none => simp only [bookAppointment, h1, h2]
    | some date =>
      cases h3 : isPastDate env date with
      | true => simp only [bookAppointment, h1, h2, h3, if_true]
      | false =>
        rw [bookAppointment_of_validated h1 h2 h3, bookAppointment_of_validated h1 h2 h3]
        obtain ⟨c1, c2, c3, c4⟩ := resolvePatient_congr env st st2 req hp hn
        obtain ⟨a1, a2⟩ := resolvePatient_appointments env st req
        rcases hr : resolvePatient env st req with ⟨st1, res⟩
        rcases hr2 : resolvePatient env st2 req with ⟨st3, res2⟩
        rw [hr, hr2] at c1 c2
        rw [hr2] at c3 c4
        rw [hr] at a1 a2
        simp only at c1 c2 c3 c4 a1 a2
        subst c1
        have hdoc : st3.doctors = st1.doctors := by rw [c3, hd, a2]
        have htt : takenTimes st3 doctorId date = takenTimes st1 doctorId date := by
          rw [takenTimes_congr st2 st3 c4, ht, takenTimes_congr st st1 a1]
        cases res2 with
        | error r => rfl
        | ok patient =>
          simp only [hdoc, htt]
          cases st1.doctors.find? (fun d => d.id == doctorId) with
          | none => rfl
          | some doctor =>
            simp only
            split
            · rfl
            · split
              · rfl
              · cases chooseTime doctor.availableTime (takenTimes st1 doctorId date) req.time with
                | error r => rfl
                | ok t => simp only [createAppointment, c2]

/-- C18, as amended. A cancelled appointment keeps blocking its slot: the status
update to Cancelled succeeds on an existing appointment and leaves the booked
times of every doctor and date as they were, so its time is still booked; every
booking request gets the response it would get without the update; an explicit
request for that doctor, date and time that passes the steps before the slot
allocation, with the time inside a window of the doctor, fails with the
slot-taken error; and no appointment created for that doctor and date,
auto-assigned or not, carries that time. -/
theorem cancelled_keeps_blocking (env : Env) (st : Store) (idStr : Str) (id : Nat)
    (a : Appointment) (hid : env.objectId idStr = some id)
    (hex : st.appointments.find? (fun x => x.id == id) = some a) :
    (updateAppointmentStatus env st idStr (some "Cancelled".toList)).2 =
      UpdateResponse.ok { a with status := "Cancelled".toList } ∧
    (∀ d date, takenTimes (updateAppointmentStatus env st idStr (some "Cancelled".toList)).1
      d date = takenTimes st d date) ∧
    a.time ∈ takenTimes (updateAppointmentStatus env st idStr (some "Cancelled".toList)).1
      a.doctorId a.date ∧
    (∀ req, (bookAppointment env
        (updateAppointmentStatus env st idStr (some "Cancelled".toList)).1 req).2 =
      (bookAppointment env st req).2) ∧
    (∀ req st1 patient doctor,
      ReachesAllocation env (updateAppointmentStatus env st idStr (some "Cancelled".toList)).1
        req st1 a.doctorId a.date patient doctor →
      truthy req.time = some a.time →
      (∀ w ∈ doctor.availableTime, faithfulWindow w = true) →
      isTimeValid doctor.availableTime a.time = true →
      bookAppointment env (updateAppointmentStatus env st idStr (some "Cancelled".toList)).1 req =
        (st1, Response.badRequest "Selected time is already booked".toList)) ∧
    (∀ req st2 b dn,
      bookAppointment env (updateAppointmentStatus env st idStr (some "Cancelled".toList)).1 req =
        (st2, Response.created b dn) →
      b.doctorId = a.doctorId → b.date = a.date → b.time ≠ a.time) := by
  obtain ⟨p1, p2, p3, p4⟩ := update_preserves env st idStr (some "Cancelled".toList)
  obtain ⟨st2, hu, _⟩ := update_of_existing env st idStr id a hid hex "Cancelled".toList
    (by decide)
  have hmem : a.time ∈ takenTimes st a.doctorId a.date := by
    have ha := List.mem_of_find?_eq_some hex
    simp only [takenTimes, List.mem_map, List.mem_filter]
    exact ⟨a, ⟨ha, by simp⟩, rfl⟩
  refine ⟨by rw [hu], p4, by rw [p4]; exact hmem, ?_, ?_, ?_⟩
  · intro req
    exact bookAppointment_response_congr env st _ req p1 p2 p3 p4
  · intro req st1 patient doctor hr ht _ hv
    obtain ⟨_, _, r3⟩ := takenTimes_reaches hr
    have hc : (takenTimes st1 a.doctorId a.date).contains a.time = true := by
      rw [r3, p4]; simpa using hmem
    rw [bookAppointment_of_reaches hr, chooseTime_explicit _ _ _ a.time ht, hv, hc]
    rfl
  · intro req st3 b dn hb h1 h2 h3
    obtain ⟨st1, doctorId, date, patient, doctor, t, hr, hc, hcr⟩ := reaches_of_created hb
    obtain ⟨e1, e2, e3, _⟩ := createAppointment_eq hcr
    obtain ⟨_, _, r3⟩ := takenTimes_reaches hr
    have hfree := chooseTime_ok_not_taken _ _ _ _ hc
    rw [r3, p4, ← e1, ← e2, ← e3, h1, h2, h3] at hfree
    exact hfree hmem

theorem cancelled_keeps_blocking_witness :
    bookAppointment (clockEnv utcNoon)
        (updateAppointmentStatus (clockEnv utcNoon)
          (sampleStore ["09:00 AM - 09:30 AM".toList] ["9:00 AM".toList]) "a10".toList
          (some "Cancelled".toList)).1
        (sampleRequest (some "9:00 AM".toList)) =
      ((updateAppointmentStatus (clockEnv utcNoon)
          (sampleStore ["09:00 AM - 09:30 AM".toList] ["9:00 AM".toList]) "a10".toList
          (some "Cancelled".toList)).1,
        Response.badRequest "Selected time is already booked".toList) ∧
    (sampleAppointment 11 "9:10 AM".toList).time ≠ (sampleAppointment 10 "9:00 AM".toList).time :=
  ⟨(cancelled_keeps_blocking (clockEnv utcNoon)
      (sampleStore ["09:00 AM - 09:30 AM".toList] ["9:00 AM".toList]) "a10".toList 10
      (sampleAppointment 10 "9:00 AM".toList) (by decide) (by decide)).2.2.2.2.1
      (sampleRequest (some "9:00 AM".toList))
      (updateAppointmentStatus (clockEnv utcNoon)
        (sampleStore ["09:00 AM - 09:30 AM".toList] ["9:00 AM".toList]) "a10".toList
        (some "Cancelled".toList)).1
      (2, "Asha".toList) (sampleDoctor ["09:00 AM - 09:30 AM".toList])
      (by decide) (by decide) (by decide) (by decide),
    (cancelled_keeps_blocking (clockEnv utcNoon)
      (sampleStore ["09:00 AM - 09:30 AM".toList] ["9:00 AM".toList]) "a10".toList 10
      (sampleAppointment 10 "9:00 AM".toList) (by decide) (by decide)).2.2.2.2.2
      (sampleRequest none)
      (bookAppointment (clockEnv utcNoon)
        (updateAppointmentStatus (clockEnv utcNoon)
          (sampleStore ["09:00 AM - 09:30 AM".toList] ["9:00 AM".toList]) "a10".toList
          (some "Cancelled".toList)).1
        (sampleRequest none)).1
      (sampleAppointment 11 "9:10 AM".toList) "Dr Rao".toList (by decide) rfl rfl⟩

/-- C18, counterexample. After the cancellation an explicit request for the
doctor, date and time of the appointment does not always fail with the
slot-taken error: for an appointment dated before today it fails with the
past-date error, and for a doctor whose windows no longer contain the time it
fails with the invalid-slot error. -/
theorem cancelled_request_other_errors :
    (updateAppointmentStatus (clockEnv utcNoon) yesterdayStore "a10".toList
      (some "Cancelled".toList)).2 =
      UpdateResponse.ok
        { sampleAppointment 10 "9:00 AM".toList with
            date := "2030-01-06".toList, status := "Cancelled".toList } ∧
    (bookAppointment (clockEnv utcNoon)
      (updateAppointmentStatus (clockEnv utcNoon) yesterdayStore "a10".toList
        (some "Cancelled".toList)).1
      { sampleRequest (some "9:00 AM".toList) with date := some "2030-01-06".toList }).2 =
      Response.badRequest "Cannot book an appointment for a past date".toList ∧
    (updateAppointmentStatus (clockEnv utcNoon)
      (sampleStore ["10:00 AM - 11:00 AM".toList] ["9:00 AM".toList]) "a10".toList
      (some "Cancelled".toList)).2 =
      UpdateResponse.ok { sampleAppointment 10 "9:00 AM".toList with status := "Cancelled".toList } ∧
    (bookAppointment (clockEnv utcNoon)
      (updateAppointmentStatus (clockEnv utcNoon)
        (sampleStore ["10:00 AM - 11:00 AM".toList] ["9:00 AM".toList]) "a10".toList
        (some "Cancelled".toList)).1
      (sampleRequest (some "9:00 AM".toList))).2 =
      Response.badRequest "Time not within doctor's available slots".toList := by
  decide

/-! ## Lemmas on well-formed windows -/

theorem clockFields_eq (s hs ms md : Str) (h : clockFields s = some (hs, ms, md)) :
    s = hs ++ ':' :: ms ++ ' ' :: md := by
  unfold clockFields at h
  split at h
  · split at h
    · rename_i hc
      simp only [Bool.and_eq_true, beq_iff_eq] at hc
      simp only [Option.some.injEq, Prod.mk.injEq] at h
      obtain ⟨rfl, rfl, rfl⟩ := h
      simp [hc.1, hc.2]
    · simp at h
  · split at h
    · rename_i hc
      simp only [Bool.and_eq_true, beq_iff_eq] at hc
      simp only [Option.some.injEq, Prod.mk.injEq] at h
      obtain ⟨rfl, rfl, rfl⟩ := h
      simp [hc.1, hc.2]
    · simp at h
  · simp at h

theorem isClock_parse (s : Str) (h : isClock s = true) :
    ∃ n, parseTime s = JSNum.fin n ∧ n ≤ 1439 := by
  unfold isClock at h
  split at h
  · rename_i hs ms md hf
    simp only [Bool.and_eq_true, decide_eq_true_eq, Bool.or_eq_true, beq_iff_eq] at h
    obtain ⟨⟨⟨⟨⟨h1, h2⟩, _⟩, h4⟩, h5⟩, h6⟩ := h
    rw [clockFields_eq s hs ms md hf]
    rcases h6 with h6 | h6
    · subst h6
      rw [parseTime_digits hs ms _ h1 h2 (by decide), clockValue_AM]
      refine ⟨_, rfl, ?_⟩
      split <;> omega
    · subst h6
      rw [parseTime_digits hs ms _ h1 h2 (by decide), clockValue_PM]
      refine ⟨_, rfl, ?_⟩
      split <;> omega
  · simp at h

theorem isWindow_bounds (w : Str) (h : isWindow w = true) :
    HasBounds w ∧ ∃ s e, windowBounds w = (JSNum.fin s, JSNum.fin e) ∧ e ≤ 1439 := by
  unfold isWindow at h
  split at h
  · rename_i a b hsp
    simp only [Bool.and_eq_true] at h
    obtain ⟨s, hs, _⟩ := isClock_parse a h.1
    obtain ⟨e, he, hle⟩ := isClock_parse b h.2
    refine ⟨by unfold HasBounds; rw [hsp]; simp, s, e, ?_, hle⟩
    simp only [windowBounds, hsp, List.map_cons, List.headD_cons, hs, he]
    rfl
  · simp at h

theorem mem_specCandidates_grid {ws : List Str} {c : Nat} (h : c ∈ specCandidates ws) :
    ∃ w ∈ ws, ∃ s e k, windowBounds w = (JSNum.fin s, JSNum.fin e) ∧ c = s + 10 * k ∧
      c + 10 ≤ e := by
  unfold specCandidates at h
  simp only [List.mem_flatMap] at h
  obtain ⟨w, hw, hc⟩ := h
  unfold specSlotCandidates at hc
  split at hc
  · rename_i s e hb
    have hle := (mem_specWindowCandidates hc).2
    unfold specWindowCandidates at hc
    simp only [List.mem_map, List.mem_range] at hc
    obtain ⟨k, _, hk⟩ := hc
    exact ⟨w, hw, s, e, k, hb, hk.symm, hle⟩
  · simp at hc

/-- C15. Slot validity of auto-assignment: with well-formed windows the loop
does not throw, and a time it returns passes the window check, and its minute
of day is `start + 10 * k` for a declared window with that minute plus 10 at
most the end of the window. -/
theorem autoAssign_slot_valid (ws taken : List Str) (hw : ∀ w ∈ ws, isWindow w = true) :
    autoAssign taken ws ≠ AutoResult.threw ∧
    ∀ t, autoAssign taken ws = AutoResult.found t →
      isTimeValid ws t = true ∧
      ∃ w ∈ ws, ∃ s e k, windowBounds w = (JSNum.fin s, JSNum.fin e) ∧
        parseTime t = JSNum.fin (s + 10 * k) ∧ s + 10 * k + 10 ≤ e := by
  refine ⟨autoAssign_ne_threw taken ws (fun w h => (isWindow_bounds w (hw w h)).1), ?_⟩
  intro t h
  obtain ⟨before, c, rest, hl, _, _, ht⟩ := autoAssign_found_firstFree taken ws t h
  have hc : c ∈ specCandidates ws := by rw [hl]; simp
  obtain ⟨w, hmem, s, e, k, hb, hk, hle⟩ := mem_specCandidates_grid hc
  obtain ⟨_, s2, e2, hb2, he2⟩ := isWindow_bounds w (hw w hmem)
  rw [hb] at hb2
  simp only [Prod.mk.injEq, JSNum.fin.injEq] at hb2
  have hp : parseTime t = JSNum.fin c := by
    rw [ht]; exact parse_format_roundtrip c (by omega)
  refine ⟨?_, w, hmem, s, e, k, hb, by rw [hp, hk], by omega⟩
  rw [isTimeValid_iff_aux]
  exact ⟨c, hp, w, hmem, s, e, hb, by omega, hle⟩

theorem autoAssign_slot_valid_witness :
    (∀ w ∈ ["09:00 AM - 09:30 AM".toList, "1:00 PM - 2:00 PM".toList], isWindow w = true) ∧
    autoAssign ["9:00 AM".toList] ["09:00 AM - 09:30 AM".toList, "1:00 PM - 2:00 PM".toList] =
      AutoResult.found "9:10 AM".toList ∧
    isTimeValid ["09:00 AM - 09:30 AM".toList, "1:00 PM - 2:00 PM".toList] "9:10 AM".toList = true :=
  ⟨by decide, by decide,
    ((autoAssign_slot_valid ["09:00 AM - 09:30 AM".toList, "1:00 PM - 2:00 PM".toList]
      ["9:00 AM".toList] (by decide)).2 "9:10 AM".toList (by decide)).1⟩

/-! ## The past-date check against the platform clock -/

theorem isPastDate_platform (clock : Clock) (objectId : Str → Option Nat)
    (patientAccepted : Str → Nat → Str → Str → Bool) (date : Str) (y m d : Nat)
    (h : parseIsoDate date = some (y, m, d)) :
    isPastDate (platformEnv clock objectId patientAccepted) date =
      decide (daysFromCivil y m d * msPerDay <
        localDay clock * msPerDay - clock.offsetMinutes * 60000) := by
  simp [isPastDate, platformEnv, dateValue, h, todayStart]

theorem isPastDate_east (clock : Clock) (objectId : Str → Option Nat)
    (patientAccepted : Str → Nat → Str → Str → Bool) (date : Str) (y m d : Nat)
    (h : parseIsoDate date = some (y, m, d))
    (h1 : 0 ≤ clock.offsetMinutes) (h2 : clock.offsetMinutes < 1440) :
    isPastDate (platformEnv clock objectId patientAccepted) date = true ↔
      daysFromCivil y m d < localDay clock := by
  rw [isPastDate_platform clock objectId patientAccepted date y m d h]
  simp only [decide_eq_true_eq, msPerDay]
  omega

theorem isPastDate_west (clock : Clock) (objectId : Str → Option Nat)
    (patientAccepted : Str → Nat → Str → Str → Bool) (date : Str) (y m d : Nat)
    (h : parseIsoDate date = some (y, m, d))
    (h1 : clock.offsetMinutes < 0) (h2 : -1440 < clock.offsetMinutes) :
    isPastDate (platformEnv clock objectId patientAccepted) date = true ↔
      daysFromCivil y m d ≤ localDay clock := by
  rw [isPastDate_platform clock objectId patientAccepted date y m d h]
  simp only [decide_eq_true_eq, msPerDay]
  omega

/-- C16, the code at the failing input. On a server five hours behind UTC, at
12:00 local time of 2030-01-07, the date string 2030-01-07 denotes the current
local calendar day, and the booking for it is rejected as a past date: the
date is read as UTC midnight and compared with the local midnight. The same
request is not rejected on a server in the UTC zone. -/
theorem today_rejected_west_of_utc :
    parseIsoDate "2030-01-07".toList = some (2030, 1, 7) ∧
    localDay westNoon = daysFromCivil 2030 1 7 ∧
    isPastDate (clockEnv westNoon) "2030-01-07".toList = true ∧
    bookAppointment (clockEnv westNoon) (sampleStore ["09:00 AM - 09:30 AM".toList] [])
        (sampleRequest none) =
      (sampleStore ["09:00 AM - 09:30 AM".toList] [],
        Response.badRequest "Cannot book an appointment for a past date".toList) ∧
    localDay utcNoon = daysFromCivil 2030 1 7 ∧
    isPastDate (clockEnv utcNoon) "2030-01-07".toList = false := by
  decide

/-- C19, the code at the failing input. With 9:00 AM booked, the explicit
request for the zero-padded string 09:00 AM, which denotes the same minute 540,
is accepted; and with 09:00 AM booked, auto-assignment returns 9:00 AM. The
conflict checks compare the strings, not the minutes. -/
theorem same_minute_double_booking :
    parseTime "9:00 AM".toList = JSNum.fin 540 ∧
    parseTime "09:00 AM".toList = JSNum.fin 540 ∧
    (bookAppointment sampleEnv (sampleStore ["09:00 AM - 01:00 PM".toList] ["9:00 AM".toList])
      (sampleRequest (some "09:00 AM".toList))).2 =
      Response.created (sampleAppointment 11 "09:00 AM".toList) "Dr Rao".toList ∧
    (bookAppointment sampleEnv (sampleStore ["09:00 AM - 01:00 PM".toList] ["09:00 AM".toList])
      (sampleRequest none)).2 =
      Response.created (sampleAppointment 11 "9:00 AM".toList) "Dr Rao".toList := by
  decide

/-- C20, the code at the failing input. A request with complete inline patient
details fails at the slot check (the time is booked) and at the doctor lookup
(no such doctor), and in both cases the patient record created at line 60
stays in the patient store; the appointment store is unchanged. -/
theorem failed_booking_leaves_patient :
    bookAppointment sampleEnv (sampleStore ["09:00 AM - 09:30 AM".toList] ["9:00 AM".toList])
        { sampleRequest (some "9:00 AM".toList) with
            patientId := none, patient := some sampleDetails } =
      ({ sampleStore ["09:00 AM - 09:30 AM".toList] ["9:00 AM".toList] with
          patients := (sampleStore ["09:00 AM - 09:30 AM".toList] ["9:00 AM".toList]).patients ++
            [{ id := 11, name := "Ravi".toList, age := 41, gender := "M".toList,
               phone := "777".toList }],
          nextId := 12 },
        Response.badRequest "Selected time is already booked".toList) ∧
    bookAppointment sampleEnv
        { sampleStore ["09:00 AM - 09:30 AM".toList] [] with doctors := [] }
        { sampleRequest none with patientId := none, patient := some sampleDetails } =
      ({ sampleStore ["09:00 AM - 09:30 AM".toList] [] with
          doctors := [],
          patients := (sampleStore ["09:00 AM - 09:30 AM".toList] []).patients ++
            [{ id := 10, name := "Ravi".toList, age := 41, gender := "M".toList,
               phone := "777".toList }],
          nextId := 11 },
        Response.badRequest "Doctor not found".toList) := by
  decide

theorem bookAppointment_failure_keeps_appointments (env : Env) (st : Store) (req : BookRequest)
    (h : ∀ a dn, (bookAppointment env st req).2 ≠ Response.created a dn) :
    (bookAppointment env st req).1.appointments = st.appointments := by
  cases h1 : (truthy req.doctorId).bind env.objectId with
  | none => simp only [bookAppointment, h1]
  | some doctorId =>
    cases h2 : truthy req.date with
    | none => simp only [bookAppointment, h1, h2]
    | some date =>
      cases h3 : isPastDate env date with
      | true => simp only [bookAppointment, h1, h2, h3, if_true]
      | false =>
        have hb := @bookAppointment_of_validated env st req doctorId date h1 h2 h3
        obtain ⟨a1, _⟩ := resolvePatient_appointments env st req
        rcases hr : resolvePatient env st req with ⟨st1, res⟩
        rw [hr] at hb a1
        simp only at a1
        rw [hb] at h ⊢
        cases res with
        | error r => exact a1
        | ok patient =>
          simp only at h ⊢
          cases hf : st1.doctors.find? (fun d => d.id == doctorId) with
          | none => exact a1
          | some doctor =>
            simp only [hf] at h ⊢
            by_cases hd : (!doctor.availableDays.contains (env.dayName date)) = true
            · rw [if_pos hd]; exact a1
            · by_cases ht : doctor.availableTime.isEmpty = true
              · rw [if_neg hd, if_pos ht]; exact a1
              · rw [if_neg hd, if_neg ht] at h ⊢
                cases hc : chooseTime doctor.availableTime (takenTimes st1 doctorId date)
                    req.time with
                | error r => exact a1
                | ok t =>
                  rw [hc] at h
                  exact absurd rfl (h _ _)

end Hospital
